import Mathlib

/-!
Verification development for the text-rendering core of this repository:

* `UnicodeOrthographicSyllablesSegmenter` (`src/util/util.ts`): grapheme
  clustering and orthographic-syllable merging over Unicode property tables.
* `GlyphManager` (`_getAndCacheGlyphsPromise` and friends): the per-stack
  glyph cache with coalesced per-range remote fetches and local synthesis.
* `TinySDF` (`draw`, `edt`, `edt1d`): the signed-distance-field rasterizer.

JavaScript strings are modelled as lists of UTF-16 code units (`Str`), and
JavaScript iteration by code points (`[...str]`, `codePointAt`) is modelled
by an explicit surrogate-pair decoder, so that the source's mixed use of
code-point iteration (phase 1 of the segmenter) and code-unit indexing
(`s[i]`, `s.length - 1` in phase 2) is reproduced exactly.

The property sets are the result of running the source's parser over the
embedded `RAW_PROPERTY_LIST` specification: each `...Ranges` list below
enumerates, as inclusive code-point ranges, exactly the code points the
source parser adds to the corresponding `Set`, and the hand-curated sets
are transcribed element by element with JavaScript string-literal semantics
(in particular `'ᅲ0'` in the source is the two-unit string
`[0x1172, 0x30]`, since `\u` escapes take exactly four hex digits).
-/

set_option maxRecDepth 10000

namespace MapGlyphs

/-- A JavaScript string: a list of UTF-16 code units. -/
abbrev Str := List Nat

/-! ## Unicode property tables (parsed result of `RAW_PROPERTY_LIST`) -/

def inRanges (rs : List (Nat × Nat)) (u : Nat) : Bool :=
  rs.any (fun r => decide (r.1 ≤ u) && decide (u ≤ r.2))

def isHighSurrogate (u : Nat) : Bool := decide (0xD800 ≤ u) && decide (u ≤ 0xDBFF)

def isLowSurrogate (u : Nat) : Bool := decide (0xDC00 ≤ u) && decide (u ≤ 0xDFFF)

/-- The code point denoted by a surrogate pair. -/
def decodePair (h l : Nat) : Nat := 0x10000 + (h - 0xD800) * 0x400 + (l - 0xDC00)

def prependRanges : List (Nat × Nat) := [
  (0x600, 0x605), (0x6DD, 0x6DD), (0x70F, 0x70F), (0x890, 0x891), (0x8E2, 0x8E2), (0xD4E, 0xD4E), (0x110BD, 0x110BD), (0x110CD, 0x110CD),
  (0x111C2, 0x111C3), (0x1193F, 0x1193F), (0x11941, 0x11941), (0x11A3A, 0x11A3A), (0x11A84, 0x11A89), (0x11D46, 0x11D46), (0x11F02, 0x11F02)]

def controlRanges : List (Nat × Nat) := [
  (0x0, 0x9), (0xB, 0xC), (0xE, 0x1F), (0x7F, 0x9F), (0xAD, 0xAD), (0x61C, 0x61C), (0x180E, 0x180E), (0x200B, 0x200B),
  (0x200E, 0x200F), (0x2028, 0x202E), (0x2060, 0x206F), (0xFEFF, 0xFEFF), (0xFFF0, 0xFFFB), (0x13430, 0x1343F), (0x1BCA0, 0x1BCA3), (0x1D173, 0x1D17A),
  (0xE0000, 0xE001F), (0xE0080, 0xE00FF), (0xE01F0, 0xE0FFF)]

def extendRanges : List (Nat × Nat) := [
  (0x300, 0x36F), (0x483, 0x489), (0x591, 0x5BD), (0x5BF, 0x5BF), (0x5C1, 0x5C2), (0x5C4, 0x5C5), (0x5C7, 0x5C7), (0x610, 0x61A),
  (0x64B, 0x65F), (0x670, 0x670), (0x6D6, 0x6DC), (0x6DF, 0x6E4), (0x6E7, 0x6E8), (0x6EA, 0x6ED), (0x711, 0x711), (0x730, 0x74A),
  (0x7A6, 0x7B0), (0x7EB, 0x7F3), (0x7FD, 0x7FD), (0x816, 0x819), (0x81B, 0x823), (0x825, 0x827), (0x829, 0x82D), (0x859, 0x85B),
  (0x898, 0x89F), (0x8CA, 0x8E1), (0x8E3, 0x902), (0x93A, 0x93A), (0x93C, 0x93C), (0x941, 0x948), (0x94D, 0x94D), (0x951, 0x957),
  (0x962, 0x963), (0x981, 0x981), (0x9BC, 0x9BC), (0x9BE, 0x9BE), (0x9C1, 0x9C4), (0x9CD, 0x9CD), (0x9D7, 0x9D7), (0x9E2, 0x9E3),
  (0x9FE, 0x9FE), (0xA01, 0xA02), (0xA3C, 0xA3C), (0xA41, 0xA42), (0xA47, 0xA48), (0xA4B, 0xA4D), (0xA51, 0xA51), (0xA70, 0xA71),
  (0xA75, 0xA75), (0xA81, 0xA82), (0xABC, 0xABC), (0xAC1, 0xAC5), (0xAC7, 0xAC8), (0xACD, 0xACD), (0xAE2, 0xAE3), (0xAFA, 0xAFF),
  (0xB01, 0xB01), (0xB3C, 0xB3C), (0xB3E, 0xB3F), (0xB41, 0xB44), (0xB4D, 0xB4D), (0xB55, 0xB57), (0xB62, 0xB63), (0xB82, 0xB82),
  (0xBBE, 0xBBE), (0xBC0, 0xBC0), (0xBCD, 0xBCD), (0xBD7, 0xBD7), (0xC00, 0xC00), (0xC04, 0xC04), (0xC3C, 0xC3C), (0xC3E, 0xC40),
  (0xC46, 0xC48), (0xC4A, 0xC4D), (0xC55, 0xC56), (0xC62, 0xC63), (0xC81, 0xC81), (0xCBC, 0xCBC), (0xCBF, 0xCBF), (0xCC2, 0xCC2),
  (0xCC6, 0xCC6), (0xCCC, 0xCCD), (0xCD5, 0xCD6), (0xCE2, 0xCE3), (0xD00, 0xD01), (0xD3B, 0xD3C), (0xD3E, 0xD3E), (0xD41, 0xD44),
  (0xD4D, 0xD4D), (0xD57, 0xD57), (0xD62, 0xD63), (0xD81, 0xD81), (0xDCA, 0xDCA), (0xDCF, 0xDCF), (0xDD2, 0xDD4), (0xDD6, 0xDD6),
  (0xDDF, 0xDDF), (0xE31, 0xE31), (0xE34, 0xE3A), (0xE47, 0xE4E), (0xEB1, 0xEB1), (0xEB4, 0xEBC), (0xEC8, 0xECE), (0xF18, 0xF19),
  (0xF35, 0xF35), (0xF37, 0xF37), (0xF39, 0xF39), (0xF71, 0xF7E), (0xF80, 0xF84), (0xF86, 0xF87), (0xF8D, 0xF97), (0xF99, 0xFBC),
  (0xFC6, 0xFC6), (0x102D, 0x1030), (0x1032, 0x1037), (0x1039, 0x103A), (0x103D, 0x103E), (0x1058, 0x1059), (0x105E, 0x1060), (0x1071, 0x1074),
  (0x1082, 0x1082), (0x1085, 0x1086), (0x108D, 0x108D), (0x109D, 0x109D), (0x135D, 0x135F), (0x1712, 0x1714), (0x1732, 0x1733), (0x1752, 0x1753),
  (0x1772, 0x1773), (0x17B4, 0x17B5), (0x17B7, 0x17BD), (0x17C6, 0x17C6), (0x17C9, 0x17D3), (0x17DD, 0x17DD), (0x180B, 0x180D), (0x180F, 0x180F),
  (0x1885, 0x1886), (0x18A9, 0x18A9), (0x1920, 0x1922), (0x1927, 0x1928), (0x1932, 0x1932), (0x1939, 0x193B), (0x1A17, 0x1A18), (0x1A1B, 0x1A1B),
  (0x1A56, 0x1A56), (0x1A58, 0x1A5E), (0x1A60, 0x1A60), (0x1A62, 0x1A62), (0x1A65, 0x1A6C), (0x1A73, 0x1A7C), (0x1A7F, 0x1A7F), (0x1AB0, 0x1ACE),
  (0x1B00, 0x1B03), (0x1B34, 0x1B3A), (0x1B3C, 0x1B3C), (0x1B42, 0x1B42), (0x1B6B, 0x1B73), (0x1B80, 0x1B81), (0x1BA2, 0x1BA5), (0x1BA8, 0x1BA9),
  (0x1BAB, 0x1BAD), (0x1BE6, 0x1BE6), (0x1BE8, 0x1BE9), (0x1BED, 0x1BED), (0x1BEF, 0x1BF1), (0x1C2C, 0x1C33), (0x1C36, 0x1C37), (0x1CD0, 0x1CD2),
  (0x1CD4, 0x1CE0), (0x1CE2, 0x1CE8), (0x1CED, 0x1CED), (0x1CF4, 0x1CF4), (0x1CF8, 0x1CF9), (0x1DC0, 0x1DFF), (0x200C, 0x200C), (0x20D0, 0x20F0),
  (0x2CEF, 0x2CF1), (0x2D7F, 0x2D7F), (0x2DE0, 0x2DFF), (0x302A, 0x302F), (0x3099, 0x309A), (0xA66F, 0xA672), (0xA674, 0xA67D), (0xA69E, 0xA69F),
  (0xA6F0, 0xA6F1), (0xA802, 0xA802), (0xA806, 0xA806), (0xA80B, 0xA80B), (0xA825, 0xA826), (0xA82C, 0xA82C), (0xA8C4, 0xA8C5), (0xA8E0, 0xA8F1),
  (0xA8FF, 0xA8FF), (0xA926, 0xA92D), (0xA947, 0xA951), (0xA980, 0xA982), (0xA9B3, 0xA9B3), (0xA9B6, 0xA9B9), (0xA9BC, 0xA9BD), (0xA9E5, 0xA9E5),
  (0xAA29, 0xAA2E), (0xAA31, 0xAA32), (0xAA35, 0xAA36), (0xAA43, 0xAA43), (0xAA4C, 0xAA4C), (0xAA7C, 0xAA7C), (0xAAB0, 0xAAB0), (0xAAB2, 0xAAB4),
  (0xAAB7, 0xAAB8), (0xAABE, 0xAABF), (0xAAC1, 0xAAC1), (0xAAEC, 0xAAED), (0xAAF6, 0xAAF6), (0xABE5, 0xABE5), (0xABE8, 0xABE8), (0xABED, 0xABED),
  (0xFB1E, 0xFB1E), (0xFE00, 0xFE0F), (0xFE20, 0xFE2F), (0xFF9E, 0xFF9F), (0x101FD, 0x101FD), (0x102E0, 0x102E0), (0x10376, 0x1037A), (0x10A01, 0x10A03),
  (0x10A05, 0x10A06), (0x10A0C, 0x10A0F), (0x10A38, 0x10A3A), (0x10A3F, 0x10A3F), (0x10AE5, 0x10AE6), (0x10D24, 0x10D27), (0x10EAB, 0x10EAC), (0x10EFD, 0x10EFF),
  (0x10F46, 0x10F50), (0x10F82, 0x10F85), (0x11001, 0x11001), (0x11038, 0x11046), (0x11070, 0x11070), (0x11073, 0x11074), (0x1107F, 0x11081), (0x110B3, 0x110B6),
  (0x110B9, 0x110BA), (0x110C2, 0x110C2), (0x11100, 0x11102), (0x11127, 0x1112B), (0x1112D, 0x11134), (0x11173, 0x11173), (0x11180, 0x11181), (0x111B6, 0x111BE),
  (0x111C9, 0x111CC), (0x111CF, 0x111CF), (0x1122F, 0x11231), (0x11234, 0x11234), (0x11236, 0x11237), (0x1123E, 0x1123E), (0x11241, 0x11241), (0x112DF, 0x112DF),
  (0x112E3, 0x112EA), (0x11300, 0x11301), (0x1133B, 0x1133C), (0x1133E, 0x1133E), (0x11340, 0x11340), (0x11357, 0x11357), (0x11366, 0x1136C), (0x11370, 0x11374),
  (0x11438, 0x1143F), (0x11442, 0x11444), (0x11446, 0x11446), (0x1145E, 0x1145E), (0x114B0, 0x114B0), (0x114B3, 0x114B8), (0x114BA, 0x114BA), (0x114BD, 0x114BD),
  (0x114BF, 0x114C0), (0x114C2, 0x114C3), (0x115AF, 0x115AF), (0x115B2, 0x115B5), (0x115BC, 0x115BD), (0x115BF, 0x115C0), (0x115DC, 0x115DD), (0x11633, 0x1163A),
  (0x1163D, 0x1163D), (0x1163F, 0x11640), (0x116AB, 0x116AB), (0x116AD, 0x116AD), (0x116B0, 0x116B5), (0x116B7, 0x116B7), (0x1171D, 0x1171F), (0x11722, 0x11725),
  (0x11727, 0x1172B), (0x1182F, 0x11837), (0x11839, 0x1183A), (0x11930, 0x11930), (0x1193B, 0x1193C), (0x1193E, 0x1193E), (0x11943, 0x11943), (0x119D4, 0x119D7),
  (0x119DA, 0x119DB), (0x119E0, 0x119E0), (0x11A01, 0x11A0A), (0x11A33, 0x11A38), (0x11A3B, 0x11A3E), (0x11A47, 0x11A47), (0x11A51, 0x11A56), (0x11A59, 0x11A5B),
  (0x11A8A, 0x11A96), (0x11A98, 0x11A99), (0x11C30, 0x11C36), (0x11C38, 0x11C3D), (0x11C3F, 0x11C3F), (0x11C92, 0x11CA7), (0x11CAA, 0x11CB0), (0x11CB2, 0x11CB3),
  (0x11CB5, 0x11CB6), (0x11D31, 0x11D36), (0x11D3A, 0x11D3A), (0x11D3C, 0x11D3D), (0x11D3F, 0x11D45), (0x11D47, 0x11D47), (0x11D90, 0x11D91), (0x11D95, 0x11D95),
  (0x11D97, 0x11D97), (0x11EF3, 0x11EF4), (0x11F00, 0x11F01), (0x11F36, 0x11F3A), (0x11F40, 0x11F40), (0x11F42, 0x11F42), (0x13440, 0x13440), (0x13447, 0x13455),
  (0x16AF0, 0x16AF4), (0x16B30, 0x16B36), (0x16F4F, 0x16F4F), (0x16F8F, 0x16F92), (0x16FE4, 0x16FE4), (0x1BC9D, 0x1BC9E), (0x1CF00, 0x1CF2D), (0x1CF30, 0x1CF46),
  (0x1D165, 0x1D165), (0x1D167, 0x1D169), (0x1D16E, 0x1D172), (0x1D17B, 0x1D182), (0x1D185, 0x1D18B), (0x1D1AA, 0x1D1AD), (0x1D242, 0x1D244), (0x1DA00, 0x1DA36),
  (0x1DA3B, 0x1DA6C), (0x1DA75, 0x1DA75), (0x1DA84, 0x1DA84), (0x1DA9B, 0x1DA9F), (0x1DAA1, 0x1DAAF), (0x1E000, 0x1E006), (0x1E008, 0x1E018), (0x1E01B, 0x1E021),
  (0x1E023, 0x1E024), (0x1E026, 0x1E02A), (0x1E08F, 0x1E08F), (0x1E130, 0x1E136), (0x1E2AE, 0x1E2AE), (0x1E2EC, 0x1E2EF), (0x1E4EC, 0x1E4EF), (0x1E8D0, 0x1E8D6),
  (0x1E944, 0x1E94A), (0x1F3FB, 0x1F3FF), (0xE0020, 0xE007F), (0xE0100, 0xE01EF)]

def spacingMarkRanges : List (Nat × Nat) := [
  (0x903, 0x903), (0x93B, 0x93B), (0x93E, 0x940), (0x949, 0x94C), (0x94E, 0x94F), (0x982, 0x983), (0x9BF, 0x9C0), (0x9C7, 0x9C8),
  (0x9CB, 0x9CC), (0xA03, 0xA03), (0xA3E, 0xA40), (0xA83, 0xA83), (0xABE, 0xAC0), (0xAC9, 0xAC9), (0xACB, 0xACC), (0xB02, 0xB03),
  (0xB40, 0xB40), (0xB47, 0xB48), (0xB4B, 0xB4C), (0xBBF, 0xBBF), (0xBC1, 0xBC2), (0xBC6, 0xBC8), (0xBCA, 0xBCC), (0xC01, 0xC03),
  (0xC41, 0xC44), (0xC82, 0xC83), (0xCBE, 0xCBE), (0xCC0, 0xCC1), (0xCC3, 0xCC4), (0xCC7, 0xCC8), (0xCCA, 0xCCB), (0xCF3, 0xCF3),
  (0xD02, 0xD03), (0xD3F, 0xD40), (0xD46, 0xD48), (0xD4A, 0xD4C), (0xD82, 0xD83), (0xDD0, 0xDD1), (0xDD8, 0xDDE), (0xDF2, 0xDF3),
  (0xE33, 0xE33), (0xEB3, 0xEB3), (0xF3E, 0xF3F), (0xF7F, 0xF7F), (0x1031, 0x1031), (0x103B, 0x103C), (0x1056, 0x1057), (0x1084, 0x1084),
  (0x1715, 0x1715), (0x1734, 0x1734), (0x17B6, 0x17B6), (0x17BE, 0x17C5), (0x17C7, 0x17C8), (0x1923, 0x1926), (0x1929, 0x192B), (0x1930, 0x1931),
  (0x1933, 0x1938), (0x1A19, 0x1A1A), (0x1A55, 0x1A55), (0x1A57, 0x1A57), (0x1A6D, 0x1A72), (0x1B04, 0x1B04), (0x1B3B, 0x1B3B), (0x1B3D, 0x1B41),
  (0x1B43, 0x1B44), (0x1B82, 0x1B82), (0x1BA1, 0x1BA1), (0x1BA6, 0x1BA7), (0x1BAA, 0x1BAA), (0x1BE7, 0x1BE7), (0x1BEA, 0x1BEC), (0x1BEE, 0x1BEE),
  (0x1BF2, 0x1BF3), (0x1C24, 0x1C2B), (0x1C34, 0x1C35), (0x1CE1, 0x1CE1), (0x1CF7, 0x1CF7), (0xA823, 0xA824), (0xA827, 0xA827), (0xA880, 0xA881),
  (0xA8B4, 0xA8C3), (0xA952, 0xA953), (0xA983, 0xA983), (0xA9B4, 0xA9B5), (0xA9BA, 0xA9BB), (0xA9BE, 0xA9C0), (0xAA2F, 0xAA30), (0xAA33, 0xAA34),
  (0xAA4D, 0xAA4D), (0xAAEB, 0xAAEB), (0xAAEE, 0xAAEF), (0xAAF5, 0xAAF5), (0xABE3, 0xABE4), (0xABE6, 0xABE7), (0xABE9, 0xABEA), (0xABEC, 0xABEC),
  (0x11000, 0x11000), (0x11002, 0x11002), (0x11082, 0x11082), (0x110B0, 0x110B2), (0x110B7, 0x110B8), (0x1112C, 0x1112C), (0x11145, 0x11146), (0x11182, 0x11182),
  (0x111B3, 0x111B5), (0x111BF, 0x111C0), (0x111CE, 0x111CE), (0x1122C, 0x1122E), (0x11232, 0x11233), (0x11235, 0x11235), (0x112E0, 0x112E2), (0x11302, 0x11303),
  (0x1133F, 0x1133F), (0x11341, 0x11344), (0x11347, 0x11348), (0x1134B, 0x1134D), (0x11362, 0x11363), (0x11435, 0x11437), (0x11440, 0x11441), (0x11445, 0x11445),
  (0x114B1, 0x114B2), (0x114B9, 0x114B9), (0x114BB, 0x114BC), (0x114BE, 0x114BE), (0x114C1, 0x114C1), (0x115B0, 0x115B1), (0x115B8, 0x115BB), (0x115BE, 0x115BE),
  (0x11630, 0x11632), (0x1163B, 0x1163C), (0x1163E, 0x1163E), (0x116AC, 0x116AC), (0x116AE, 0x116AF), (0x116B6, 0x116B6), (0x11726, 0x11726), (0x1182C, 0x1182E),
  (0x11838, 0x11838), (0x11931, 0x11935), (0x11937, 0x11938), (0x1193D, 0x1193D), (0x11940, 0x11940), (0x11942, 0x11942), (0x119D1, 0x119D3), (0x119DC, 0x119DF),
  (0x119E4, 0x119E4), (0x11A39, 0x11A39), (0x11A57, 0x11A58), (0x11A97, 0x11A97), (0x11C2F, 0x11C2F), (0x11C3E, 0x11C3E), (0x11CA9, 0x11CA9), (0x11CB1, 0x11CB1),
  (0x11CB4, 0x11CB4), (0x11D8A, 0x11D8E), (0x11D93, 0x11D94), (0x11D96, 0x11D96), (0x11EF5, 0x11EF6), (0x11F03, 0x11F03), (0x11F34, 0x11F35), (0x11F3E, 0x11F3F),
  (0x11F41, 0x11F41), (0x16F51, 0x16F87), (0x16FF0, 0x16FF1), (0x1D166, 0x1D166), (0x1D16D, 0x1D16D)]

def exceptionsMembers : List Str := [
  [0x102B], [0x102C], [0x1038], [0x1062], [0x1063], [0x1064], [0x1067], [0x1068],
  [0x1069], [0x106A], [0x106B], [0x106C], [0x106D], [0x1083], [0x1087], [0x1088],
  [0x1089], [0x108A], [0x108B], [0x108C], [0x108F], [0x109A], [0x109B], [0x109C],
  [0x1A61], [0x1A63], [0x1A64], [0xAA7B], [0xAA7D], [0x1172, 0x30], [0x1172, 0x31]]

def invisibleStackerMembers : List Str := [
  [0xAAF6], [0xD806, 0xDD3E], [0xD807, 0xDD45], [0xD807, 0xDD97], [0x1BAB], [0xD802, 0xDE3F], [0xD806, 0xDE47], [0xD806, 0xDE99],
  [0x1039], [0xD804, 0xDD33], [0x17D2], [0x1A60]]

def viramaMembers : List Str := [
  [0x94D], [0x9CD], [0xA4D], [0xACD], [0xB4D], [0xC4D], [0xCCD], [0xD4D],
  [0x1B44], [0xA806], [0xA8C4], [0xD804, 0xDCB9], [0xD804, 0xDDC0], [0xD804, 0xDE35], [0xD804, 0xDF4D], [0xD805, 0xDC42],
  [0xD805, 0xDCC2], [0xD805, 0xDDBF], [0xD805, 0xDE3F], [0xD805, 0xDEB6], [0xD806, 0xDDE0], [0xD806, 0xDC39], [0xD804, 0xDC46], [0xD807, 0xDC3F],
  [0x1B44], [0xA9C0], [0xE001], [0xE002]]

def consonantsMembers : List Str := [
  [0x1B27], [0x1B29], [0x1B22], [0x1B24], [0x1B13], [0x1B15], [0x1B18], [0x1B1A],
  [0x1B32], [0x1B33], [0x1B2B], [0x1B26], [0x1B17], [0x1B1C], [0x1B2F], [0x1B2D],
  [0x1B2E], [0x1B2C], [0x1B28], [0x1B2A], [0x1B1D], [0x1B23], [0x1B25], [0x1B16],
  [0x1B30], [0x1B31], [0x1B21], [0x1B1E], [0x1B1F], [0x1B20], [0x1B14], [0x1B19],
  [0x1B1B], [0x1B45], [0x1B46], [0x1B47], [0x1B48], [0x1B49], [0x1B4A], [0x1B4B],
  [0x1B0B], [0x1B0C], [0x1B0D], [0x1B0E], [0x915], [0x916], [0x917], [0x918],
  [0x919], [0x91A], [0x91B], [0x91C], [0x91D], [0x91E], [0x91F], [0x920],
  [0x921], [0x922], [0x923], [0x924], [0x925], [0x926], [0x927], [0x928],
  [0x92A], [0x92B], [0x92C], [0x92D], [0x92E], [0x92F], [0x930], [0x932],
  [0x935], [0x936], [0x937], [0x938], [0x939], [0x933], [0x979], [0x97A],
  [0x97B], [0x97C], [0x97E], [0x97F], [0xD9A], [0xD9C], [0xD9F], [0xDA0],
  [0xDA2], [0xDA7], [0xDA9], [0xDAB], [0xDAC], [0xDAD], [0xDAF], [0xDB3],
  [0xDB4], [0xDB6], [0xDB8], [0xDB9], [0xDBA], [0xDBB], [0xDBD], [0xDC5],
  [0xDC0], [0xDC3], [0xDC4], [0xD9B], [0xD9D], [0xDA5], [0xD9E], [0xDA1],
  [0xDA3], [0xDA4], [0xDA6], [0xDA8], [0xDAA], [0xDAE], [0xDB0], [0xDB1],
  [0xDB5], [0xDB7], [0xDC1], [0xDC2], [0xDC6], [0xA9A7], [0xA995], [0xA9A2],
  [0xA99D], [0xA992], [0xA9B2], [0xA997], [0xA98F], [0xA9AD], [0xA9A9], [0xA9A4],
  [0xA99A], [0xA994], [0xA9A5], [0xA9AB], [0xA9B1], [0xA9A0], [0xA99B], [0xA9AE],
  [0xA9AA], [0xA9A8], [0xA996], [0xA993], [0xA991], [0xA99F], [0xA998], [0xA9A6],
  [0xA9AC], [0xA9AF], [0xA9A1], [0xA9A3], [0xA99E], [0xA999], [0xA9B0], [0xA99C],
  [0xA990], [0xA989], [0xA98A], [0xA98B], [0xD15], [0xD16], [0xD17], [0xD18],
  [0xD19], [0xD1A], [0xD1B], [0xD1C], [0xD1D], [0xD1E], [0xD1F], [0xD20],
  [0xD21], [0xD22], [0xD23], [0xD24], [0xD25], [0xD26], [0xD27], [0xD28],
  [0xD29], [0xD2A], [0xD2B], [0xD2C], [0xD2D], [0xD2E], [0xD2F], [0xD30],
  [0xD31], [0xD32], [0xD33], [0xD34], [0xD35], [0xD36], [0xD37], [0xD38],
  [0xD39], [0xD3A], [0xD7A], [0xD7B], [0xD7C], [0xD7D], [0xD7E], [0xD7F],
  [0x9AA], [0x9AB], [0x9AC], [0x9AD], [0x9A4], [0x9A5], [0x9A6], [0x9A7],
  [0x99F], [0x9A0], [0x9A1], [0x9A2], [0x995], [0x996], [0x997], [0x998],
  [0x99A], [0x99B], [0x99C], [0x9AF], [0x99D], [0x9B8], [0x9B6], [0x9B7],
  [0x9B9], [0x9AE], [0x9A8], [0x999], [0x99E], [0x9A3], [0x9F1], [0x9B0],
  [0x9F0], [0x9B2], [0x9CE], [0xA2A], [0xA2D], [0xA2C], [0xA2B], [0xA24],
  [0xA27], [0xA26], [0xA25], [0xA1A], [0xA1D], [0xA1C], [0xA1B], [0xA1F],
  [0xA22], [0xA21], [0xA20], [0xA15], [0xA18], [0xA17], [0xA16], [0xA35],
  [0xA38], [0xA39], [0xA2E], [0xA28], [0xA1E], [0xA23], [0xA19], [0xA2F],
  [0xA30], [0xA5C], [0xA32], [0xA2B, 0xA3C], [0xA1C, 0xA3C], [0xA38, 0xA3C], [0xA16, 0xA3C], [0xA17, 0xA3C],
  [0xA32, 0xA3C], [0xA72], [0xA73]]

def devanagariConsonants : List Nat := [
  0x915, 0x916, 0x917, 0x918, 0x919, 0x91A, 0x91B, 0x91C, 0x91D, 0x91E, 0x91F, 0x920, 0x921, 0x922, 0x923, 0x924, 0x925, 0x926, 0x927, 0x928, 0x92A, 0x92B, 0x92C, 0x92D, 0x92E, 0x92F, 0x930, 0x932, 0x935, 0x936, 0x937, 0x938, 0x939, 0x933, 0x979, 0x97A, 0x97B, 0x97C, 0x97E, 0x97F]

/-! ## Set membership

A parsed set contains `String.fromCodePoint(cp)` for every parsed code
point `cp`: the one-unit string `[cp]` when `cp < 0x10000`, and the
surrogate pair otherwise.  Membership of an arbitrary string is therefore
decided as follows. -/

def memRanges (rs : List (Nat × Nat)) : Str → Bool
  | [u] => decide (u < 0x10000) && inRanges rs u
  | [h, l] => isHighSurrogate h && isLowSurrogate l && inRanges rs (decodePair h l)
  | _ => false

def memPrepend (c : Str) : Bool := memRanges prependRanges c

def memControl (c : Str) : Bool := memRanges controlRanges c

def memSpacingMark (c : Str) : Bool := memRanges spacingMarkRanges c

/-- `Extend` with the two post-parse additions `''`, `''`. -/
def memExtend (c : Str) : Bool :=
  memRanges extendRanges c || c == [0xE006] || c == [0xE007]

def memExceptions (c : Str) : Bool := exceptionsMembers.contains c

def memInvisibleStacker (c : Str) : Bool := invisibleStackerMembers.contains c

def memVirama (c : Str) : Bool := viramaMembers.contains c

def memConsonants (c : Str) : Bool := consonantsMembers.contains c

/-! ## The segmenter (`UnicodeOrthographicSyllablesSegmenter`) -/

/-- JavaScript `[...str]`: split a string into code-point characters
(surrogate pairs kept together, lone surrogates as single units). -/
def charsOf : Str → List Str
  | [] => []
  | [u] => [[u]]
  | u :: l :: rest =>
    if isHighSurrogate u && isLowSurrogate l then [u, l] :: charsOf rest
    else [u] :: charsOf (l :: rest)

/-- The loop body of `makeGraphemeClusters`, processing the character list
with the running index `i`, the emitted clusters `out`, the current cluster
`clust` and the `prependFlag`. -/
def mgcLoop : List Str → Nat → List Str → Str → Bool → List Str × Str × Bool
  | [], _, out, clust, flag => (out, clust, flag)
  | c :: cs, i, out, clust, flag =>
    if memExtend c then mgcLoop cs (i + 1) out (clust ++ c) flag
    else if memSpacingMark c then mgcLoop cs (i + 1) out (clust ++ c) flag
    else if memControl c then mgcLoop cs (i + 1) out (clust ++ c) flag
    else if memPrepend c then mgcLoop cs (i + 1) (out ++ [clust]) c true
    else if flag then mgcLoop cs (i + 1) out (clust ++ c) false
    else if i > 0 then mgcLoop cs (i + 1) (out ++ [clust]) c flag
    else mgcLoop cs (i + 1) out c flag

def makeGraphemeClusters (s : Str) : List Str :=
  let st := mgcLoop (charsOf s) 0 [] [] false
  st.1 ++ [st.2.1]

/-- `String.prototype.replace` with a global literal-sequence pattern
`p :: ps` (the source patterns contain no regex metacharacters other than
escapes denoting literal units): scan left to right, replace each
occurrence by `rep`, continue after the replacement.  The recursion is
driven by an explicit fuel (`s.length` suffices, since every step consumes
at least one unit), keeping the definition structurally recursive. -/
def replaceAllAux (p : Nat) (ps rep : List Nat) : Nat → Str → Str
  | _, [] => []
  | 0, s => s
  | fuel + 1, u :: rest =>
    if (p :: ps).isPrefixOf (u :: rest) then
      rep ++ replaceAllAux p ps rep fuel (rest.drop ps.length)
    else
      u :: replaceAllAux p ps rep fuel rest

def replaceAll (p : Nat) (ps rep : List Nat) (s : Str) : Str :=
  replaceAllAux p ps rep s.length s

/-- The five forward substitutions of `segment` (temporary tokens), in
source order.  Note the Tamil patterns contain the literal unit `|`
(`|`), exactly as written in the source regexes. -/
def substitute (c : Str) : Str :=
  replaceAll 0xBB6 [0xBCD, 0x7C, 0xBB0, 0xBC0] [0xE005]
    (replaceAll 0xBB8 [0xBCD, 0x7C, 0xBB0, 0xBC0] [0xE004]
      (replaceAll 0xB95 [0xBCD, 0x7C, 0xBB7] [0xE003]
        (replaceAll 0x200D [0xDCA] [0xE002]
          (replaceAll 0xDCA [0x200D] [0xE001] c))))

/-- The five reinstating substitutions of `segment`, in source order. -/
def reinstate (c : Str) : Str :=
  replaceAll 0xE005 [] [0xBB6, 0xBCD, 0xBB0, 0xBC0]
    (replaceAll 0xE004 [] [0xBB8, 0xBCD, 0xBB0, 0xBC0]
      (replaceAll 0xE003 [] [0xB95, 0xBCD, 0xBB7]
        (replaceAll 0xE002 [] [0x200D, 0xDCA]
          (replaceAll 0xE001 [] [0xDCA, 0x200D] c))))

/-- `set.has(s[i])`: indexing a JavaScript string yields a one-unit string,
or `undefined` past the end (and `Set.has(undefined)` is `false`). -/
def hasUnit (mem : Str → Bool) : Option Nat → Bool
  | some u => mem [u]
  | none => false

/-- The merge condition of `segment`'s main loop, comparing the trailing
code unit of the accumulated cluster `x` with the leading code unit of the
next cluster `y`. -/
def mergeCond (x y : Str) : Bool :=
  (hasUnit memVirama x.getLast? && hasUnit memConsonants y.head?)
    || hasUnit memInvisibleStacker x.getLast?
    || hasUnit memExceptions y.head?

/-- The merge loop of `segment`: iterate `i` from `0` to `a.length - 2`,
merging or emitting, then append the final cluster and emit.  The input
list is always non-empty (it comes from `makeGraphemeClusters`). -/
def segLoop (out : List Str) (clust : Str) : List Str → List Str
  | [] => out
  | [x] => out ++ [clust ++ x]
  | x :: y :: rest =>
    if mergeCond x y then segLoop out (clust ++ x) (y :: rest)
    else segLoop (out ++ [clust ++ x]) [] (y :: rest)

/-- `UnicodeOrthographicSyllablesSegmenter.segment`. -/
def segment (s : Str) : List Str :=
  let a := (makeGraphemeClusters s).map substitute
  (segLoop [] [] a).map reinstate

/-! ## Concatenation lemmas for the segmenter -/

theorem charsOf_flatten (s : Str) : (charsOf s).flatten = s := by
  induction s using charsOf.induct with
  | case1 => simp [charsOf]
  | case2 u => simp [charsOf]
  | case3 u l rest h ih => rw [charsOf]; simp [h, ih]
  | case4 u l rest h ih => rw [charsOf]; simp [h, ih]

theorem mgcLoop_flatten (cs : List Str) (i : Nat) (out : List Str) (clust : Str)
    (flag : Bool) (h0 : i = 0 → clust = []) :
    (mgcLoop cs i out clust flag).1.flatten ++ (mgcLoop cs i out clust flag).2.1
      = out.flatten ++ (clust ++ cs.flatten) := by
  induction cs generalizing i out clust flag with
  | nil => simp [mgcLoop]
  | cons c cs ih =>
    rw [mgcLoop]
    split_ifs with h1 h2 h3 h4 h5 h6
    · rw [ih _ _ _ _ (by omega)]; simp
    · rw [ih _ _ _ _ (by omega)]; simp
    · rw [ih _ _ _ _ (by omega)]; simp
    · rw [ih _ _ _ _ (by omega)]; simp
    · rw [ih _ _ _ _ (by omega)]; simp
    · rw [ih _ _ _ _ (by omega)]; simp
    · rw [ih _ _ _ _ (by omega)]
      have : clust = [] := h0 (by omega)
      simp [this]

theorem makeGraphemeClusters_flatten (s : Str) :
    (makeGraphemeClusters s).flatten = s := by
  unfold makeGraphemeClusters
  have h := mgcLoop_flatten (charsOf s) 0 [] [] false (fun _ => rfl)
  simpa [charsOf_flatten] using h

theorem segLoop_flatten (a : List Str) (out : List Str) (clust : Str) (h : a ≠ []) :
    (segLoop out clust a).flatten = out.flatten ++ (clust ++ a.flatten) := by
  induction a generalizing out clust with
  | nil => exact absurd rfl h
  | cons x rest ih =>
    cases rest with
    | nil => simp [segLoop]
    | cons y rest' =>
      rw [segLoop]
      split
      · rw [ih _ _ (by simp)]; simp
      · rw [ih _ _ (by simp)]; simp

theorem makeGraphemeClusters_ne_nil (s : Str) : makeGraphemeClusters s ≠ [] := by
  simp [makeGraphemeClusters]

theorem segLoop_ne_nil (a : List Str) (out : List Str) (clust : Str) (h : a ≠ []) :
    segLoop out clust a ≠ [] := by
  induction a generalizing out clust with
  | nil => exact absurd rfl h
  | cons x rest ih =>
    cases rest with
    | nil => simp [segLoop]
    | cons y rest' =>
      rw [segLoop]
      split
      · exact ih _ _ (by simp)
      · exact ih _ _ (by simp)

/-- C10: `segment` always returns a non-empty list of segments; on the empty
string it returns the one-element list containing the empty segment (an
empty segment can therefore occur in the output), never the empty list. -/
theorem C10_segment_never_empty :
    (∀ s : Str, segment s ≠ []) ∧ segment ([] : Str) = [[]] := by
  refine ⟨fun s => ?_, by decide⟩
  unfold segment
  intro hc
  rcases List.map_eq_nil_iff.mp hc with h
  exact segLoop_ne_nil _ _ _ (by simp [makeGraphemeClusters_ne_nil]) h

/-! ## Theory of `replaceAll` -/

theorem replaceAllAux_zero (p : Nat) (ps rep : List Nat) (s : Str) :
    replaceAllAux p ps rep 0 s = s := by
  cases s <;> rfl

theorem replaceAllAux_nil (p : Nat) (ps rep : List Nat) (fuel : Nat) :
    replaceAllAux p ps rep fuel [] = [] := by
  cases fuel <;> rfl

theorem replaceAllAux_of_not_occurring (p : Nat) (ps rep : List Nat) (fuel : Nat) (s : Str)
    (h : ¬ ((p :: ps) <:+: s)) : replaceAllAux p ps rep fuel s = s := by
  induction fuel generalizing s with
  | zero => cases s <;> rfl
  | succ fuel ih =>
    cases s with
    | nil => rfl
    | cons u rest =>
      rw [replaceAllAux]
      rw [if_neg]
      · rw [ih rest (fun hin => h (hin.trans (List.suffix_cons u rest).isInfix))]
      · intro hpre
        exact h (List.isPrefixOf_iff_prefix.mp hpre).isInfix

theorem replaceAll_of_not_occurring (p : Nat) (ps rep : List Nat) (s : Str)
    (h : ¬ ((p :: ps) <:+: s)) : replaceAll p ps rep s = s :=
  replaceAllAux_of_not_occurring p ps rep s.length s h

theorem prefix_of_prefix_replaceAllAux (p t : Nat) (ps : List Nat) (fuel : Nat)
    (s π : Str) (hpre : π <+: replaceAllAux p ps [t] fuel s) (ht : t ∉ π) : π <+: s := by
  induction fuel generalizing s π with
  | zero => rw [replaceAllAux_zero] at hpre; exact hpre
  | succ fuel ih =>
    cases s with
    | nil => rw [replaceAllAux_nil] at hpre; exact hpre
    | cons u rest =>
      rw [replaceAllAux] at hpre
      by_cases hm : (p :: ps).isPrefixOf (u :: rest) = true
      · rw [if_pos hm] at hpre
        rcases List.prefix_cons_iff.mp hpre with h0 | ⟨π', rfl, _⟩
        · simp [h0]
        · exact absurd (List.mem_cons_self t π') ht
      · rw [if_neg hm] at hpre
        rcases List.prefix_cons_iff.mp hpre with h0 | ⟨π', rfl, hπ'⟩
        · simp [h0]
        · have : π' <+: rest := ih rest π' hπ' (fun hmem => ht (List.mem_cons_of_mem u hmem))
          exact List.cons_prefix_cons.mpr ⟨rfl, this⟩

theorem infix_of_infix_replaceAllAux (p t : Nat) (ps : List Nat) (fuel : Nat)
    (s π : Str) (hinf : π <:+: replaceAllAux p ps [t] fuel s) (ht : t ∉ π) : π <:+: s := by
  induction fuel generalizing s π with
  | zero => rw [replaceAllAux_zero] at hinf; exact hinf
  | succ fuel ih =>
    cases s with
    | nil => rw [replaceAllAux_nil] at hinf; exact hinf
    | cons u rest =>
      rw [replaceAllAux] at hinf
      by_cases hm : (p :: ps).isPrefixOf (u :: rest) = true
      · rw [if_pos hm] at hinf
        rcases List.infix_cons_iff.mp hinf with hpre | htail
        · rcases List.prefix_cons_iff.mp hpre with h0 | ⟨π', rfl, _⟩
          · simp [h0]
          · exact absurd (List.mem_cons_self t π') ht
        · have h1 : π <:+: rest.drop ps.length := ih _ _ htail ht
          exact h1.trans ((List.drop_suffix ps.length rest).isInfix.trans
            (List.suffix_cons u rest).isInfix)
      · rw [if_neg hm] at hinf
        rcases List.infix_cons_iff.mp hinf with hpre | htail
        · rcases List.prefix_cons_iff.mp hpre with h0 | ⟨π', rfl, hπ'⟩
          · simp [h0]
          · have : π' <+: rest :=
              prefix_of_prefix_replaceAllAux p t ps fuel rest π' hπ'
                (fun hmem => ht (List.mem_cons_of_mem u hmem))
            exact (List.cons_prefix_cons.mpr ⟨rfl, this⟩).isInfix
        · exact (ih _ _ htail ht).trans (List.suffix_cons u rest).isInfix

theorem infix_of_infix_replaceAll (p t : Nat) (ps : List Nat) (s π : Str)
    (hinf : π <:+: replaceAll p ps [t] s) (ht : t ∉ π) : π <:+: s :=
  infix_of_infix_replaceAllAux p t ps s.length s π hinf ht

/-! ## `reinstate` as a per-unit expansion -/

/-- The combined effect of the five reinstating substitutions on one code
unit: each placeholder expands to its replacement, everything else is kept. -/
def expandTok (u : Nat) : Str :=
  if u = 0xE001 then [0xDCA, 0x200D]
  else if u = 0xE002 then [0x200D, 0xDCA]
  else if u = 0xE003 then [0xB95, 0xBCD, 0xBB7]
  else if u = 0xE004 then [0xBB8, 0xBCD, 0xBB0, 0xBC0]
  else if u = 0xE005 then [0xBB6, 0xBCD, 0xBB0, 0xBC0]
  else [u]

def expandAll (s : Str) : Str := s.flatMap expandTok

theorem flatMap_flatMap {α β γ : Type} (l : List α) (f : α → List β) (g : β → List γ) :
    (l.flatMap f).flatMap g = l.flatMap (fun a => (f a).flatMap g) := by
  induction l with
  | nil => rfl
  | cons a l ih => simp [List.flatMap_cons, List.flatMap_append, ih]

theorem replaceAllAux_single (t : Nat) (rep : List Nat) (fuel : Nat) (s : Str)
    (hf : s.length ≤ fuel) :
    replaceAllAux t [] rep fuel s = s.flatMap (fun u => if u = t then rep else [u]) := by
  induction fuel generalizing s with
  | zero =>
    have : s = [] := List.length_eq_zero.mp (Nat.le_zero.mp hf)
    subst this; rfl
  | succ fuel ih =>
    cases s with
    | nil => rfl
    | cons u rest =>
      rw [replaceAllAux]
      simp only [List.length_cons, Nat.succ_le_succ_iff] at hf
      by_cases hm : u = t
      · rw [if_pos (by simp [List.isPrefixOf, hm])]
        simp [List.flatMap_cons, hm, ih rest hf]
      · rw [if_neg (by simp [List.isPrefixOf]; exact fun h => absurd h.symm hm)]
        simp [List.flatMap_cons, hm, ih rest hf]

theorem replaceAll_single (t : Nat) (rep : List Nat) (s : Str) :
    replaceAll t [] rep s = s.flatMap (fun u => if u = t then rep else [u]) :=
  replaceAllAux_single t rep s.length s le_rfl

theorem reinstate_eq_expandAll (s : Str) : reinstate s = expandAll s := by
  unfold reinstate expandAll
  rw [replaceAll_single, replaceAll_single, replaceAll_single, replaceAll_single,
    replaceAll_single, flatMap_flatMap, flatMap_flatMap, flatMap_flatMap, flatMap_flatMap]
  apply List.flatMap_congr
  intro u _
  by_cases h1 : u = 0xE001 <;> by_cases h2 : u = 0xE002 <;> by_cases h3 : u = 0xE003 <;>
    by_cases h4 : u = 0xE004 <;> by_cases h5 : u = 0xE005 <;>
    simp_all [expandTok]

theorem expandAll_append (a b : Str) :
    expandAll (a ++ b) = expandAll a ++ expandAll b :=
  List.flatMap_append a b expandTok

theorem flatten_map_expandAll (L : List Str) :
    (L.map expandAll).flatten = expandAll L.flatten := by
  induction L with
  | nil => rfl
  | cons c L ih => simp [List.flatten_cons, ih, expandAll, List.flatMap_append]

theorem expandAll_of_fixed (s : Str) (h : ∀ u ∈ s, expandTok u = [u]) :
    expandAll s = s := by
  induction s with
  | nil => rfl
  | cons u rest ih =>
    have h1 : expandTok u = [u] := h u (List.mem_cons_self u rest)
    have h2 : expandAll rest = rest := ih (fun v hv => h v (List.mem_cons_of_mem u hv))
    simp only [expandAll, List.flatMap_cons] at *
    rw [h1, h2]
    rfl

theorem expandTok_of_free (u : Nat) (h : ¬(0xE001 ≤ u ∧ u ≤ 0xE005)) :
    expandTok u = [u] := by
  unfold expandTok
  rw [if_neg (by omega), if_neg (by omega), if_neg (by omega), if_neg (by omega),
    if_neg (by omega)]

theorem expandAll_of_free (s : Str) (h : ∀ u ∈ s, ¬(0xE001 ≤ u ∧ u ≤ 0xE005)) :
    expandAll s = s :=
  expandAll_of_fixed s (fun u hu => expandTok_of_free u (h u hu))

/-- Replacing a pattern by a placeholder that `expandTok` maps back to the
pattern does not change the expansion of the string (the key inversion fact
for the Sinhala substitutions). -/
theorem expandAll_replaceAllAux_inv (p t : Nat) (ps : List Nat)
    (ht : expandTok t = p :: ps) (hp : ∀ u ∈ p :: ps, expandTok u = [u])
    (fuel : Nat) (s : Str) (hf : s.length ≤ fuel) :
    expandAll (replaceAllAux p ps [t] fuel s) = expandAll s := by
  induction fuel generalizing s with
  | zero => rw [replaceAllAux_zero]
  | succ fuel ih =>
    cases s with
    | nil => rw [replaceAllAux_nil]
    | cons u rest =>
      rw [replaceAllAux]
      simp only [List.length_cons, Nat.succ_le_succ_iff] at hf
      by_cases hm : (p :: ps).isPrefixOf (u :: rest) = true
      · rw [if_pos hm]
        have hpre := List.isPrefixOf_iff_prefix.mp hm
        have hdecomp : u :: rest = (p :: ps) ++ (rest.drop ps.length) := by
          have h0 := List.prefix_iff_eq_append.mp hpre
          simpa using h0.symm
        rw [hdecomp, expandAll_append, expandAll_append]
        have h1 : expandAll [t] = p :: ps := by
          simp [expandAll, List.flatMap_cons, ht]
        have hlen : (rest.drop ps.length).length ≤ fuel := by
          rw [List.length_drop]; omega
        rw [h1, expandAll_of_fixed _ hp, ih _ hlen]
      · rw [if_neg hm]
        have h2 := ih rest hf
        simp only [expandAll, List.flatMap_cons] at *
        rw [h2]

theorem expandAll_sinhala1 (s : Str) :
    expandAll (replaceAll 0xDCA [0x200D] [0xE001] s) = expandAll s :=
  expandAll_replaceAllAux_inv 0xDCA 0xE001 [0x200D] (by decide) (by decide)
    s.length s le_rfl

theorem expandAll_sinhala2 (s : Str) :
    expandAll (replaceAll 0x200D [0xDCA] [0xE002] s) = expandAll s :=
  expandAll_replaceAllAux_inv 0x200D 0xE002 [0xDCA] (by decide) (by decide)
    s.length s le_rfl

/-! ## Shape of the clusters produced by `makeGraphemeClusters`

A cluster is built from whole characters: it starts with at most one
"free" character (an ordinary one, or a `Prepend` one possibly followed,
after marks, by one more free character appended under the pending flag),
and all other characters appended to it are in `Extend`, `SpacingMark` or
`Control`.  This is what makes the Tamil conjunct patterns (which require
a `|` unit preceded by two specific non-mark units) unmatchable inside a
cluster. -/

/-- A character produced by `charsOf`: one unit, or a surrogate pair. -/
def WFChar (c : Str) : Prop :=
  (∃ u, c = [u]) ∨ ∃ h l, c = [h, l] ∧ isHighSurrogate h = true ∧ isLowSurrogate l = true

def extLike (c : Str) : Bool := memExtend c || memSpacingMark c || memControl c

/-- A concatenation of well-formed characters that are all marks
(`Extend`/`SpacingMark`/`Control`). -/
inductive ExtFlat : Str → Prop
  | nil : ExtFlat []
  | cons {c F : Str} : WFChar c → extLike c = true → ExtFlat F → ExtFlat (c ++ F)

theorem ExtFlat.append_char {F c : Str} (hF : ExtFlat F) (hc : WFChar c)
    (he : extLike c = true) : ExtFlat (F ++ c) := by
  induction hF with
  | nil => simpa using ExtFlat.cons hc he ExtFlat.nil
  | cons hwf hext _ ih => simpa [List.append_assoc] using ExtFlat.cons hwf hext ih

/-- The shapes a current or emitted cluster can have. -/
inductive GoodCl : Str → Prop
  | ext {F : Str} : ExtFlat F → GoodCl F
  | other {x F : Str} : WFChar x → ExtFlat F → GoodCl (x ++ F)
  | prep {p F : Str} : WFChar p → memPrepend p = true → ExtFlat F → GoodCl (p ++ F)
  | prepx {p F x G : Str} : WFChar p → memPrepend p = true → ExtFlat F → WFChar x →
      ExtFlat G → GoodCl (p ++ F ++ x ++ G)

theorem GoodCl.append_ext {w c : Str} (hw : GoodCl w) (hc : WFChar c)
    (he : extLike c = true) : GoodCl (w ++ c) := by
  cases hw with
  | ext hF => exact GoodCl.ext (hF.append_char hc he)
  | other hx hF => simpa [List.append_assoc] using GoodCl.other hx (hF.append_char hc he)
  | prep hp hmem hF => simpa [List.append_assoc] using GoodCl.prep hp hmem (hF.append_char hc he)
  | prepx hp hmem hF hx hG =>
    simpa [List.append_assoc] using GoodCl.prepx hp hmem hF hx (hG.append_char hc he)

/-- The invariant maintained by the clustering loop. -/
def MgcInv (st : List Str × Str × Bool) : Prop :=
  (∀ cl ∈ st.1, GoodCl cl) ∧ GoodCl st.2.1 ∧
    (st.2.2 = true →
      ∃ p F, st.2.1 = p ++ F ∧ WFChar p ∧ memPrepend p = true ∧ ExtFlat F)

theorem mgcLoop_inv (cs : List Str) (i : Nat) (out : List Str) (clust : Str)
    (flag : Bool) (hwf : ∀ c ∈ cs, WFChar c) (hinv : MgcInv (out, clust, flag)) :
    MgcInv (mgcLoop cs i out clust flag) := by
  induction cs generalizing i out clust flag with
  | nil => simpa [mgcLoop] using hinv
  | cons c cs ih =>
    obtain ⟨hout, hclust, hflag⟩ := hinv
    have hwc : WFChar c := hwf c (List.mem_cons_self c cs)
    have hwrest : ∀ c' ∈ cs, WFChar c' := fun c' hc' => hwf c' (List.mem_cons_of_mem c hc')
    rw [mgcLoop]
    split_ifs with h1 h2 h3 h4 h5 h6
    · refine ih _ _ _ _ hwrest ⟨hout, hclust.append_ext hwc (by simp [extLike, h1]), ?_⟩
      intro hf
      obtain ⟨p, F, rfl, hp, hpm, hF⟩ := hflag hf
      exact ⟨p, F ++ c, by simp [List.append_assoc], hp, hpm,
        hF.append_char hwc (by simp [extLike, h1])⟩
    · refine ih _ _ _ _ hwrest ⟨hout, hclust.append_ext hwc (by simp [extLike, h2]), ?_⟩
      intro hf
      obtain ⟨p, F, rfl, hp, hpm, hF⟩ := hflag hf
      exact ⟨p, F ++ c, by simp [List.append_assoc], hp, hpm,
        hF.append_char hwc (by simp [extLike, h2])⟩
    · refine ih _ _ _ _ hwrest ⟨hout, hclust.append_ext hwc (by simp [extLike, h3]), ?_⟩
      intro hf
      obtain ⟨p, F, rfl, hp, hpm, hF⟩ := hflag hf
      exact ⟨p, F ++ c, by simp [List.append_assoc], hp, hpm,
        hF.append_char hwc (by simp [extLike, h3])⟩
    · -- Prepend: emit the current cluster, start a new one with c, set the flag
      refine ih _ _ _ _ hwrest ⟨?_, ?_, ?_⟩
      · intro cl hcl
        rcases List.mem_append.mp hcl with hm | hm
        · exact hout cl hm
        · simp at hm; subst hm; exact hclust
      · simpa using GoodCl.prep hwc h4 ExtFlat.nil
      · intro _
        exact ⟨c, [], by simp, hwc, h4, ExtFlat.nil⟩
    · -- pending flag: append c to the prepend cluster, clear the flag
      obtain ⟨p, F, rfl, hp, hpm, hF⟩ := hflag h5
      refine ih _ _ _ _ hwrest ⟨hout, ?_, by simp⟩
      simpa [List.append_assoc] using GoodCl.prepx hp hpm hF hwc ExtFlat.nil
    · -- ordinary, non-initial: emit cluster, start a new one
      refine ih _ _ _ _ hwrest ⟨?_, by simpa using GoodCl.other hwc ExtFlat.nil, by simp [h5]⟩
      intro cl hcl
      rcases List.mem_append.mp hcl with hm | hm
      · exact hout cl hm
      · simp at hm; subst hm; exact hclust
    · -- ordinary, initial: replace the (empty) cluster
      exact ih _ _ _ _ hwrest ⟨hout, by simpa using GoodCl.other hwc ExtFlat.nil, by simp [h5]⟩

theorem charsOf_wf (s : Str) : ∀ c ∈ charsOf s, WFChar c := by
  induction s using charsOf.induct with
  | case1 => simp [charsOf]
  | case2 u => simp [charsOf]; exact Or.inl ⟨u, rfl⟩
  | case3 u l rest h ih =>
    rw [charsOf, if_pos h]
    intro c hc
    rcases List.mem_cons.mp hc with rfl | hm
    · exact Or.inr ⟨u, l, rfl, (Bool.and_eq_true _ _).mp h |>.1, (Bool.and_eq_true _ _).mp h |>.2⟩
    · exact ih c hm
  | case4 u l rest h ih =>
    rw [charsOf, if_neg h]
    intro c hc
    rcases List.mem_cons.mp hc with rfl | hm
    · exact Or.inl ⟨u, rfl⟩
    · exact ih c hm

theorem makeGraphemeClusters_good (s : Str) :
    ∀ cl ∈ makeGraphemeClusters s, GoodCl cl := by
  have h := mgcLoop_inv (charsOf s) 0 [] [] false (charsOf_wf s)
    ⟨by simp, GoodCl.ext ExtFlat.nil, by simp⟩
  intro cl hcl
  unfold makeGraphemeClusters at hcl
  rcases List.mem_append.mp hcl with hm | hm
  · exact h.1 cl hm
  · simp at hm; subst hm; exact h.2.1

/-! ## No Tamil conjunct pattern can occur inside a cluster -/

theorem ExtFlat.not_mem {F : Str} (hF : ExtFlat F) {X : Nat} (hXs : X < 0xD800)
    (hX : extLike [X] = false) : X ∉ F := by
  induction hF with
  | nil => simp
  | cons hwf hext _ ih =>
    rename_i c F
    intro hmem
    rcases List.mem_append.mp hmem with hc | hf
    · rcases hwf with ⟨u, rfl⟩ | ⟨h, l, rfl, hh, hl⟩
      · simp at hc; subst hc; rw [hext] at hX; cases hX
      · simp at hc
        rcases hc with rfl | rfl
        · simp [isHighSurrogate] at hh; omega
        · simp [isLowSurrogate] at hl; omega
    · exact ih hf

theorem prepChar_not_mem {p : Str} (hp : WFChar p) (hm : memPrepend p = true) {X : Nat}
    (hXs : X < 0xD800) (hX : memPrepend [X] = false) : X ∉ p := by
  rcases hp with ⟨u, rfl⟩ | ⟨h, l, rfl, hh, hl⟩
  · intro hmem; simp at hmem; subst hmem; rw [hm] at hX; cases hX
  · intro hmem; simp at hmem
    rcases hmem with rfl | rfl
    · simp [isHighSurrogate] at hh; omega
    · simp [isLowSurrogate] at hl; omega

/-- If `t` occurs exactly once on each side of an equation of lists, the
pieces before the (unique) occurrence agree. -/
theorem eq_of_append_cons_eq (t : Nat) :
    ∀ (C D C' D' : List Nat),
      C ++ t :: D = C' ++ t :: D' → t ∉ C → t ∉ C' → C = C' := by
  intro C
  induction C with
  | nil =>
    intro D C' D' heq _ hC'
    cases C' with
    | nil => rfl
    | cons c C₂ =>
      simp only [List.nil_append, List.cons_append, List.cons.injEq] at heq
      obtain ⟨rfl, _⟩ := heq
      exact absurd (List.mem_cons_self _ _) hC'
  | cons c C₂ ih =>
    intro D C' D' heq hC hC'
    cases C' with
    | nil =>
      simp only [List.nil_append, List.cons_append, List.cons.injEq] at heq
      obtain ⟨rfl, _⟩ := heq
      exact absurd (List.mem_cons_self _ _) hC
    | cons c' C₂' =>
      simp only [List.cons_append, List.cons.injEq] at heq
      obtain ⟨rfl, h2⟩ := heq
      rw [ih D C₂' D' h2 (fun h => hC (List.mem_cons_of_mem _ h))
        (fun h => hC' (List.mem_cons_of_mem _ h))]

theorem goodCl_not_infix_pat {w : Str} (hg : GoodCl w) {X : Nat}
    (hX : X = 0xB95 ∨ X = 0xBB8 ∨ X = 0xBB6) : ¬ ([X, 0xBCD, 0x7C] <:+: w) := by
  have hXlt : X < 0xD800 := by rcases hX with rfl | rfl | rfl <;> omega
  have hXext : extLike [X] = false := by rcases hX with rfl | rfl | rfl <;> decide
  have hXpre : memPrepend [X] = false := by rcases hX with rfl | rfl | rfl <;> decide
  have hXne : X ≠ 0x7C := by rcases hX with rfl | rfl | rfl <;> decide
  have h7ext : extLike [0x7C] = false := by decide
  have h7pre : memPrepend [0x7C] = false := by decide
  intro hinf
  obtain ⟨A, B, hAB⟩ := hinf
  have h7w : (0x7C : Nat) ∈ w := by
    rw [← hAB]; simp
  cases hg with
  | ext hF => exact hF.not_mem (by omega) h7ext h7w
  | prep hp hpm hF =>
    rcases List.mem_append.mp h7w with hm | hm
    · exact prepChar_not_mem hp hpm (by omega) h7pre hm
    · exact hF.not_mem (by omega) h7ext hm
  | other hx hF =>
    rename_i x F
    have hx7 : x = [0x7C] := by
      rcases List.mem_append.mp h7w with hm | hm
      · rcases hx with ⟨u, rfl⟩ | ⟨h, l, rfl, hh, hl⟩
        · simp at hm; subst hm; rfl
        · simp at hm
          rcases hm with h' | h'
          · rw [← h'] at hh; simp [isHighSurrogate] at hh
          · rw [← h'] at hl; simp [isLowSurrogate] at hl
      · exact absurd hm (hF.not_mem (by omega) h7ext)
    subst hx7
    -- w = 0x7C :: F with 0x7C ∉ F; the pattern needs two units before 0x7C
    have hAB' : (A ++ [X, 0xBCD]) ++ 0x7C :: B = [] ++ 0x7C :: F := by
      simpa [List.append_assoc] using hAB
    have hnA : (0x7C : Nat) ∉ A ++ [X, 0xBCD] := by
      intro hm
      have hF7 : (0x7C : Nat) ∉ F := hF.not_mem (by omega) h7ext
      have hmA : (0x7C : Nat) ∈ A := by
        rcases List.mem_append.mp hm with h | h
        · exact h
        · simp at h
          omega
      have hcg := congrArg (List.count 0x7C) hAB'
      simp [List.count_append, List.count_cons, hXne, List.count_eq_zero.mpr hF7] at hcg
      have h1 := List.count_pos_iff.mpr hmA
      omega
    have := eq_of_append_cons_eq 0x7C _ _ _ _ hAB' hnA (by simp)
    simp at this
  | prepx hp hpm hF hx hG =>
    rename_i p F x G
    have hpn : (0x7C : Nat) ∉ p := prepChar_not_mem hp hpm (by omega) h7pre
    have hFn : (0x7C : Nat) ∉ F := hF.not_mem (by omega) h7ext
    have hGn : (0x7C : Nat) ∉ G := hG.not_mem (by omega) h7ext
    have hx7 : x = [0x7C] := by
      have : (0x7C : Nat) ∈ x := by
        rcases List.mem_append.mp h7w with hm | hm
        · rcases List.mem_append.mp hm with hm' | hm'
          · rcases List.mem_append.mp hm' with hm'' | hm''
            · exact absurd hm'' hpn
            · exact absurd hm'' hFn
          · exact hm'
        · exact absurd hm hGn
      rcases hx with ⟨u, rfl⟩ | ⟨h, l, rfl, hh, hl⟩
      · simp at this; subst this; rfl
      · simp at this
        rcases this with h' | h'
        · rw [← h'] at hh; simp [isHighSurrogate] at hh
        · rw [← h'] at hl; simp [isLowSurrogate] at hl
    subst hx7
    have hAB' : (A ++ [X, 0xBCD]) ++ 0x7C :: B = (p ++ F) ++ 0x7C :: G := by
      simpa [List.append_assoc] using hAB
    have hnPF0 : (0x7C : Nat) ∉ p ++ F := by
      intro hm
      rcases List.mem_append.mp hm with hm' | hm' <;> [exact hpn hm'; exact hFn hm']
    have hnA : (0x7C : Nat) ∉ A ++ [X, 0xBCD] := by
      intro hm
      have hmA : (0x7C : Nat) ∈ A := by
        rcases List.mem_append.mp hm with h | h
        · exact h
        · simp at h
          omega
      have hcg := congrArg (List.count 0x7C) hAB'
      simp [List.count_append, List.count_cons, hXne, List.count_eq_zero.mpr hpn,
        List.count_eq_zero.mpr hFn, List.count_eq_zero.mpr hGn] at hcg
      have h1 := List.count_pos_iff.mpr hmA
      omega
    have heq := eq_of_append_cons_eq 0x7C _ _ _ _ hAB' hnA hnPF0
    have hXin : X ∈ p ++ F := by
      rw [← heq]; simp
    rcases List.mem_append.mp hXin with hm | hm
    · exact prepChar_not_mem hp hpm hXlt hXpre hm
    · exact hF.not_mem hXlt hXext hm

/-- On a cluster produced by phase 1 that contains no placeholder unit,
`substitute` is inverted by the expansion: the Sinhala substitutions are
restored exactly, and the Tamil ones never fire. -/
theorem expandAll_substitute {c : Str} (hg : GoodCl c)
    (hfree : ∀ u ∈ c, ¬(0xE001 ≤ u ∧ u ≤ 0xE005)) :
    expandAll (substitute c) = c := by
  unfold substitute
  have key : ∀ (X : Nat), (X = 0xB95 ∨ X = 0xBB8 ∨ X = 0xBB6) → ∀ rest2 : List Nat,
      ¬ ((X :: 0xBCD :: 0x7C :: rest2) <:+:
        replaceAll 0x200D [0xDCA] [0xE002] (replaceAll 0xDCA [0x200D] [0xE001] c)) := by
    intro X hX rest2 hinf
    have hpre : [X, 0xBCD, 0x7C] <+: X :: 0xBCD :: 0x7C :: rest2 := ⟨rest2, rfl⟩
    have h3 : [X, 0xBCD, 0x7C] <:+:
        replaceAll 0x200D [0xDCA] [0xE002] (replaceAll 0xDCA [0x200D] [0xE001] c) :=
      hpre.isInfix.trans hinf
    have hne2 : (0xE002 : Nat) ∉ ([X, 0xBCD, 0x7C] : List Nat) := by
      rcases hX with rfl | rfl | rfl <;> decide
    have hne1 : (0xE001 : Nat) ∉ ([X, 0xBCD, 0x7C] : List Nat) := by
      rcases hX with rfl | rfl | rfl <;> decide
    have h2 : [X, 0xBCD, 0x7C] <:+: replaceAll 0xDCA [0x200D] [0xE001] c :=
      infix_of_infix_replaceAll _ _ _ _ _ h3 hne2
    have h1 : [X, 0xBCD, 0x7C] <:+: c :=
      infix_of_infix_replaceAll _ _ _ _ _ h2 hne1
    exact goodCl_not_infix_pat hg hX h1
  rw [replaceAll_of_not_occurring _ _ _ _ (key 0xB95 (by tauto) [0xBB7]),
    replaceAll_of_not_occurring _ _ _ _ (key 0xBB8 (by tauto) [0xBB0, 0xBC0]),
    replaceAll_of_not_occurring _ _ _ _ (key 0xBB6 (by tauto) [0xBB0, 0xBC0]),
    expandAll_sinhala2, expandAll_sinhala1, expandAll_of_free c hfree]

/-- C1 amended: for every input string containing none of the internal
placeholder code units U+E001..U+E005, concatenating the list returned by
`segment` yields the input exactly.  (Inputs containing U+E006 or U+E007
are fine: those units are only added to the `Extend` table and are never
substituted.) -/
theorem C1_lossless_partition (s : Str)
    (h : ∀ u ∈ s, ¬(0xE001 ≤ u ∧ u ≤ 0xE005)) :
    (segment s).flatten = s := by
  have hid : (makeGraphemeClusters s).map (expandAll ∘ substitute)
      = makeGraphemeClusters s := by
    have hpt : ∀ cl ∈ makeGraphemeClusters s, (expandAll ∘ substitute) cl = id cl := by
      intro cl hcl
      have hg := makeGraphemeClusters_good s cl hcl
      have hsub : ∀ u ∈ cl, u ∈ s := by
        intro u hu
        have hinf := List.infix_of_mem_flatten hcl
        rw [makeGraphemeClusters_flatten] at hinf
        exact hinf.subset hu
      exact expandAll_substitute hg (fun u hu => h u (hsub u hu))
    rw [List.map_congr_left hpt, List.map_id]
  unfold segment
  rw [List.map_congr_left (fun (a : Str) _ => reinstate_eq_expandAll a),
    flatten_map_expandAll,
    segLoop_flatten _ _ _ (by simp [makeGraphemeClusters_ne_nil])]
  simp only [List.flatten_nil, List.nil_append]
  rw [← flatten_map_expandAll, List.map_map, hid, makeGraphemeClusters_flatten]

/-- C1 witness: a concrete application of the amended theorem (a Devanagari
conjunct input without placeholder units). -/
theorem C1_lossless_partition_witness :
    (∀ u ∈ ([0x915, 0x94D, 0x915] : Str), ¬(0xE001 ≤ u ∧ u ≤ 0xE005)) ∧
      (segment [0x915, 0x94D, 0x915]).flatten = [0x915, 0x94D, 0x915] :=
  ⟨by decide, C1_lossless_partition [0x915, 0x94D, 0x915] (by decide)⟩

/-- C1 counterexample: the claim as stated — lossless for *every* input,
including strings that themselves contain the private-use code points
U+E001..U+E007 — is false: `segment` on the one-unit string U+E001 returns
the Sinhala pair U+0DCA U+200D (the reinstating substitution fires on raw
input), so the concatenation differs from the input. -/
theorem C1_counterexample :
    segment [0xE001] = [[0xDCA, 0x200D]] ∧ (segment [0xE001]).flatten ≠ [0xE001] := by
  constructor <;> decide

/-! ## Identity of `substitute` on short clusters -/

theorem substitute_singleton (b : Nat) : substitute [b] = [b] := by
  unfold substitute
  rw [show replaceAll 0xDCA [0x200D] [0xE001] [b] = [b] from
    replaceAll_of_not_occurring _ _ _ _ (fun h => by simpa using h.length_le)]
  rw [show replaceAll 0x200D [0xDCA] [0xE002] [b] = [b] from
    replaceAll_of_not_occurring _ _ _ _ (fun h => by simpa using h.length_le)]
  rw [show replaceAll 0xB95 [0xBCD, 0x7C, 0xBB7] [0xE003] [b] = [b] from
    replaceAll_of_not_occurring _ _ _ _ (fun h => by simpa using h.length_le)]
  rw [show replaceAll 0xBB8 [0xBCD, 0x7C, 0xBB0, 0xBC0] [0xE004] [b] = [b] from
    replaceAll_of_not_occurring _ _ _ _ (fun h => by simpa using h.length_le)]
  rw [show replaceAll 0xBB6 [0xBCD, 0x7C, 0xBB0, 0xBC0] [0xE005] [b] = [b] from
    replaceAll_of_not_occurring _ _ _ _ (fun h => by simpa using h.length_le)]

theorem substitute_pair (x y : Nat) (h1 : ¬(x = 0xDCA ∧ y = 0x200D))
    (h2 : ¬(x = 0x200D ∧ y = 0xDCA)) : substitute [x, y] = [x, y] := by
  have key : ∀ p q : Nat, ¬(x = p ∧ y = q) → ¬ ([p, q] <:+: [x, y]) := by
    intro p q hpq hinf
    have he : ([p, q] : List Nat) = [x, y] := hinf.sublist.eq_of_length (by simp)
    simp only [List.cons.injEq, and_true] at he
    exact hpq ⟨he.1.symm, he.2.symm⟩
  unfold substitute
  rw [show replaceAll 0xDCA [0x200D] [0xE001] [x, y] = [x, y] from
    replaceAll_of_not_occurring _ _ _ _ (key _ _ h1)]
  rw [show replaceAll 0x200D [0xDCA] [0xE002] [x, y] = [x, y] from
    replaceAll_of_not_occurring _ _ _ _ (key _ _ h2)]
  rw [show replaceAll 0xB95 [0xBCD, 0x7C, 0xBB7] [0xE003] [x, y] = [x, y] from
    replaceAll_of_not_occurring _ _ _ _ (fun h => by simpa using h.length_le)]
  rw [show replaceAll 0xBB8 [0xBCD, 0x7C, 0xBB0, 0xBC0] [0xE004] [x, y] = [x, y] from
    replaceAll_of_not_occurring _ _ _ _ (fun h => by simpa using h.length_le)]
  rw [show replaceAll 0xBB6 [0xBCD, 0x7C, 0xBB0, 0xBC0] [0xE005] [x, y] = [x, y] from
    replaceAll_of_not_occurring _ _ _ _ (fun h => by simpa using h.length_le)]

theorem substitute_triple (u1 u2 u3 : Nat)
    (hno1 : ¬(u1 = 0xDCA ∧ u2 = 0x200D)) (hno2 : ¬(u2 = 0xDCA ∧ u3 = 0x200D))
    (hno3 : ¬(u1 = 0x200D ∧ u2 = 0xDCA)) (hno4 : ¬(u2 = 0x200D ∧ u3 = 0xDCA)) :
    substitute [u1, u2, u3] = [u1, u2, u3] := by
  have key : ∀ p q : Nat, ¬(u1 = p ∧ u2 = q) → ¬(u2 = p ∧ u3 = q) →
      ¬ ([p, q] <:+: [u1, u2, u3]) := by
    intro p q hpq hpq' hinf
    obtain ⟨A, B, hAB⟩ := hinf
    have hlen : A.length + (B.length + 1 + 1) = 3 := by
      have h0 := congrArg List.length hAB
      simpa [List.length_append] using h0
    rcases A with _ | ⟨a, _ | ⟨a', A''⟩⟩
    · simp only [List.nil_append, List.cons_append, List.cons.injEq] at hAB
      exact hpq ⟨hAB.1.symm, hAB.2.1.symm⟩
    · simp only [List.cons_append, List.nil_append, List.cons.injEq] at hAB
      exact hpq' ⟨hAB.2.1.symm, hAB.2.2.1.symm⟩
    · simp only [List.length_cons] at hlen; omega
  unfold substitute
  rw [show replaceAll 0xDCA [0x200D] [0xE001] [u1, u2, u3] = [u1, u2, u3] from
    replaceAll_of_not_occurring _ _ _ _ (key _ _ hno1 hno2)]
  rw [show replaceAll 0x200D [0xDCA] [0xE002] [u1, u2, u3] = [u1, u2, u3] from
    replaceAll_of_not_occurring _ _ _ _ (key _ _ hno3 hno4)]
  rw [show replaceAll 0xB95 [0xBCD, 0x7C, 0xBB7] [0xE003] [u1, u2, u3] = [u1, u2, u3] from
    replaceAll_of_not_occurring _ _ _ _ (fun h => by simpa using h.length_le)]
  rw [show replaceAll 0xBB8 [0xBCD, 0x7C, 0xBB0, 0xBC0] [0xE004] [u1, u2, u3]
      = [u1, u2, u3] from
    replaceAll_of_not_occurring _ _ _ _ (fun h => by simpa using h.length_le)]
  rw [show replaceAll 0xBB6 [0xBCD, 0x7C, 0xBB0, 0xBC0] [0xE005] [u1, u2, u3]
      = [u1, u2, u3] from
    replaceAll_of_not_occurring _ _ _ _ (fun h => by simpa using h.length_le)]

/-- Generic form of the conjunct-atomicity property: any codepoint outside
the four tables, followed by the Devanagari virama U+094D (which is in
`Extend`), followed by a codepoint in `Consonants`, forms one segment. -/
theorem segment_conjunct (a b : Nat)
    (ha1 : memExtend [a] = false) (ha2 : memSpacingMark [a] = false)
    (ha3 : memControl [a] = false) (ha4 : memPrepend [a] = false)
    (hb1 : memExtend [b] = false) (hb2 : memSpacingMark [b] = false)
    (hb3 : memControl [b] = false) (hb4 : memPrepend [b] = false)
    (hbc : memConsonants [b] = true)
    (haf : ¬(0xE001 ≤ a ∧ a ≤ 0xE005)) (hbf : ¬(0xE001 ≤ b ∧ b ≤ 0xE005)) :
    segment [a, 0x94D, b] = [[a, 0x94D, b]] := by
  have hchars : charsOf [a, 0x94D, b] = [[a], [0x94D], [b]] := by
    rw [charsOf, if_neg (by simp [isLowSurrogate]), charsOf,
      if_neg (by simp [isHighSurrogate]), charsOf]
  have hmgc : makeGraphemeClusters [a, 0x94D, b] = [[a, 0x94D], [b]] := by
    unfold makeGraphemeClusters
    rw [hchars]
    rw [mgcLoop, if_neg (by simp [ha1]), if_neg (by simp [ha2]), if_neg (by simp [ha3]),
      if_neg (by simp [ha4]), if_neg (by simp), if_neg (by simp)]
    rw [mgcLoop, if_pos (by decide)]
    rw [mgcLoop, if_neg (by simp [hb1]), if_neg (by simp [hb2]), if_neg (by simp [hb3]),
      if_neg (by simp [hb4]), if_neg (by simp), if_pos (by simp)]
    rw [mgcLoop]
    simp
  have hsub1 : substitute [a, 0x94D] = [a, 0x94D] :=
    substitute_pair a 0x94D (by omega) (by omega)
  have hsub2 : substitute [b] = [b] := substitute_singleton b
  have hmc : mergeCond [a, 0x94D] [b] = true := by
    simp [mergeCond, hasUnit, hbc, show memVirama [0x94D] = true from by decide]
  have hfree : ∀ u ∈ ([a, 0x94D, b] : Str), ¬(0xE001 ≤ u ∧ u ≤ 0xE005) := by
    intro u hu
    simp only [List.mem_cons, List.not_mem_nil, or_false] at hu
    rcases hu with rfl | rfl | rfl
    · exact haf
    · omega
    · exact hbf
  unfold segment
  rw [hmgc]
  simp only [List.map_cons, List.map_nil, hsub1, hsub2]
  rw [segLoop, if_pos hmc, segLoop]
  simp only [List.nil_append, List.map_cons, List.map_nil]
  rw [show ([a, 0x94D] ++ [b] : Str) = [a, 0x94D, b] by simp,
    reinstate_eq_expandAll, expandAll_of_free _ hfree]

/-- C5: for every three-codepoint input consisting of a Devanagari consonant
(the source's Devanagari group of `CONSONANTS_SET`), the Devanagari virama
U+094D, and another Devanagari consonant, `segment` returns a single
segment spanning all three codepoints. -/
theorem C5_conjunct_atomicity (c1 c2 : Nat) (h1 : c1 ∈ devanagariConsonants)
    (h2 : c2 ∈ devanagariConsonants) :
    segment [c1, 0x94D, c2] = [[c1, 0x94D, c2]] := by
  have hall : ∀ x ∈ devanagariConsonants,
      memExtend [x] = false ∧ memSpacingMark [x] = false ∧ memControl [x] = false ∧
        memPrepend [x] = false ∧ memConsonants [x] = true ∧ x < 0xE001 := by decide
  obtain ⟨a1, a2, a3, a4, _, a6⟩ := hall c1 h1
  obtain ⟨b1, b2, b3, b4, b5, b6⟩ := hall c2 h2
  exact segment_conjunct c1 c2 a1 a2 a3 a4 b1 b2 b3 b4 b5 (by omega) (by omega)

/-- C5 witness: KA + virama + KA. -/
theorem C5_conjunct_atomicity_witness :
    0x915 ∈ devanagariConsonants ∧
      segment [0x915, 0x94D, 0x915] = [[0x915, 0x94D, 0x915]] :=
  ⟨by decide, C5_conjunct_atomicity 0x915 0x915 (by decide) (by decide)⟩

/-! ## The glyph cache manager (`GlyphManager`)

The asynchronous `_getAndCacheGlyphsPromise` is modelled by its atomic
synchronous prefix `stepA` (everything up to the single `await` on the
range request) and its resumption `stepB` (the merge loop after a request
resolves).  JavaScript's event loop runs each prefix atomically, so a run
of any number of lookups — from one `getGlyphs` call or several concurrent
ones — is a sequence of `stepA` steps followed, per completed request, by
`stepB` steps of the lookups that awaited it.  A rejected request leaves
the state untouched (the code has no handler: `entry.requests[range]` is
never cleared and `entry.ranges[range]` is never set on failure), so a
failed fetch is represented by simply not running `stepB`.

`undefined` vs `null` in `entry.glyphs` is modelled by
`Option (Option Glyph)`: `none` is "no entry" (undefined), `some none` is
the explicit-absent `null`, `some (some g)` a present glyph.  The pixel
content of glyphs is irrelevant to the cache claims, so a glyph is an
abstract token; locally synthesized glyphs carry a freshness counter,
mirroring that `_tinySDF` builds a new `StyleGlyph` object on every call.
-/

def unicodeBlockLookup : String → Nat → Bool
  | "Latin-1 Supplement" => fun char => decide (0x0080 ≤ char) && decide (char ≤ 0x00FF)
  | "Arabic" => fun char => decide (0x0600 ≤ char) && decide (char ≤ 0x06FF)
  | "Arabic Supplement" => fun char => decide (0x0750 ≤ char) && decide (char ≤ 0x077F)
  | "Arabic Extended-A" => fun char => decide (0x08A0 ≤ char) && decide (char ≤ 0x08FF)
  | "Devanagari" => fun char => decide (0x0900 ≤ char) && decide (char ≤ 0x097F)
  | "Bengali" => fun char => decide (0x0980 ≤ char) && decide (char ≤ 0x09FF)
  | "Gujarati" => fun char => decide (0x0A80 ≤ char) && decide (char ≤ 0x0AFF)
  | "Tamil" => fun char => decide (0x0B80 ≤ char) && decide (char ≤ 0x0BFF)
  | "Telugu" => fun char => decide (0x0C00 ≤ char) && decide (char ≤ 0x0C7F)
  | "Sinhala" => fun char => decide (0x0D80 ≤ char) && decide (char ≤ 0x0DFF)
  | "Tibetan" => fun char => decide (0x0F00 ≤ char) && decide (char ≤ 0x0FFF)
  | "Myanmar" => fun char => decide (0x1000 ≤ char) && decide (char ≤ 0x109F)
  | "Hangul Jamo" => fun char => decide (0x1100 ≤ char) && decide (char ≤ 0x11FF)
  | "Unified Canadian Aboriginal Syllabics" => fun char => decide (0x1400 ≤ char) && decide (char ≤ 0x167F)
  | "Khmer" => fun char => decide (0x1780 ≤ char) && decide (char ≤ 0x17FF)
  | "Unified Canadian Aboriginal Syllabics Extended" => fun char => decide (0x18B0 ≤ char) && decide (char ≤ 0x18FF)
  | "General Punctuation" => fun char => decide (0x2000 ≤ char) && decide (char ≤ 0x206F)
  | "Letterlike Symbols" => fun char => decide (0x2100 ≤ char) && decide (char ≤ 0x214F)
  | "Number Forms" => fun char => decide (0x2150 ≤ char) && decide (char ≤ 0x218F)
  | "Miscellaneous Technical" => fun char => decide (0x2300 ≤ char) && decide (char ≤ 0x23FF)
  | "Control Pictures" => fun char => decide (0x2400 ≤ char) && decide (char ≤ 0x243F)
  | "Optical Character Recognition" => fun char => decide (0x2440 ≤ char) && decide (char ≤ 0x245F)
  | "Enclosed Alphanumerics" => fun char => decide (0x2460 ≤ char) && decide (char ≤ 0x24FF)
  | "Geometric Shapes" => fun char => decide (0x25A0 ≤ char) && decide (char ≤ 0x25FF)
  | "Miscellaneous Symbols" => fun char => decide (0x2600 ≤ char) && decide (char ≤ 0x26FF)
  | "Miscellaneous Symbols and Arrows" => fun char => decide (0x2B00 ≤ char) && decide (char ≤ 0x2BFF)
  | "CJK Radicals Supplement" => fun char => decide (0x2E80 ≤ char) && decide (char ≤ 0x2EFF)
  | "Kangxi Radicals" => fun char => decide (0x2F00 ≤ char) && decide (char ≤ 0x2FDF)
  | "Ideographic Description Characters" => fun char => decide (0x2FF0 ≤ char) && decide (char ≤ 0x2FFF)
  | "CJK Symbols and Punctuation" => fun char => decide (0x3000 ≤ char) && decide (char ≤ 0x303F)
  | "Hiragana" => fun char => decide (0x3040 ≤ char) && decide (char ≤ 0x309F)
  | "Katakana" => fun char => decide (0x30A0 ≤ char) && decide (char ≤ 0x30FF)
  | "Bopomofo" => fun char => decide (0x3100 ≤ char) && decide (char ≤ 0x312F)
  | "Hangul Compatibility Jamo" => fun char => decide (0x3130 ≤ char) && decide (char ≤ 0x318F)
  | "Kanbun" => fun char => decide (0x3190 ≤ char) && decide (char ≤ 0x319F)
  | "Bopomofo Extended" => fun char => decide (0x31A0 ≤ char) && decide (char ≤ 0x31BF)
  | "CJK Strokes" => fun char => decide (0x31C0 ≤ char) && decide (char ≤ 0x31EF)
  | "Katakana Phonetic Extensions" => fun char => decide (0x31F0 ≤ char) && decide (char ≤ 0x31FF)
  | "Enclosed CJK Letters and Months" => fun char => decide (0x3200 ≤ char) && decide (char ≤ 0x32FF)
  | "CJK Compatibility" => fun char => decide (0x3300 ≤ char) && decide (char ≤ 0x33FF)
  | "CJK Unified Ideographs Extension A" => fun char => decide (0x3400 ≤ char) && decide (char ≤ 0x4DBF)
  | "Yijing Hexagram Symbols" => fun char => decide (0x4DC0 ≤ char) && decide (char ≤ 0x4DFF)
  | "CJK Unified Ideographs" => fun char => decide (0x4E00 ≤ char) && decide (char ≤ 0x9FFF)
  | "Yi Syllables" => fun char => decide (0xA000 ≤ char) && decide (char ≤ 0xA48F)
  | "Yi Radicals" => fun char => decide (0xA490 ≤ char) && decide (char ≤ 0xA4CF)
  | "Hangul Jamo Extended-A" => fun char => decide (0xA960 ≤ char) && decide (char ≤ 0xA97F)
  | "Hangul Syllables" => fun char => decide (0xAC00 ≤ char) && decide (char ≤ 0xD7AF)
  | "Hangul Jamo Extended-B" => fun char => decide (0xD7B0 ≤ char) && decide (char ≤ 0xD7FF)
  | "Private Use Area" => fun char => decide (0xE000 ≤ char) && decide (char ≤ 0xF8FF)
  | "CJK Compatibility Ideographs" => fun char => decide (0xF900 ≤ char) && decide (char ≤ 0xFAFF)
  | "Arabic Presentation Forms-A" => fun char => decide (0xFB50 ≤ char) && decide (char ≤ 0xFDFF)
  | "Vertical Forms" => fun char => decide (0xFE10 ≤ char) && decide (char ≤ 0xFE1F)
  | "CJK Compatibility Forms" => fun char => decide (0xFE30 ≤ char) && decide (char ≤ 0xFE4F)
  | "Small Form Variants" => fun char => decide (0xFE50 ≤ char) && decide (char ≤ 0xFE6F)
  | "Arabic Presentation Forms-B" => fun char => decide (0xFE70 ≤ char) && decide (char ≤ 0xFEFF)
  | "Halfwidth and Fullwidth Forms" => fun char => decide (0xFF00 ≤ char) && decide (char ≤ 0xFFEF)
  | "CJK Unified Ideographs Extension B" => fun char => decide (0x20000 ≤ char) && decide (char ≤ 0x2A6DF)
  | "CJK Unified Ideographs Extension C" => fun char => decide (0x2A700 ≤ char) && decide (char ≤ 0x2B73F)
  | "CJK Unified Ideographs Extension D" => fun char => decide (0x2B740 ≤ char) && decide (char ≤ 0x2B81F)
  | "CJK Unified Ideographs Extension E" => fun char => decide (0x2B820 ≤ char) && decide (char ≤ 0x2CEAF)
  | "CJK Unified Ideographs Extension F" => fun char => decide (0x2CEB0 ≤ char) && decide (char ≤ 0x2EBEF)
  | "CJK Compatibility Ideographs Supplement" => fun char => decide (0x2F800 ≤ char) && decide (char ≤ 0x2FA1F)
  | _ => fun _ => false


inductive Glyph where
  | remote (n : Nat)
  | localSynth (n : Nat)
deriving DecidableEq

/-- The per-stack cache entry (`Entry` in the source), as association
lists: `glyphs : id -> StyleGlyph | null`, `requests : range -> promise`
(a promise is identified by a creation counter), `ranges` the set of
ranges marked `true`. -/
structure Entry where
  glyphs : List (Str × Option Glyph)
  requests : List (Nat × Nat)
  ranges : List Nat
deriving DecidableEq

def Entry.empty : Entry := ⟨[], [], []⟩

/-- `obj[k] = v` on an association list. -/
def setAssoc {α β : Type} [BEq α] : List (α × β) → α → β → List (α × β)
  | [], k, v => [(k, v)]
  | (k', v') :: rest, k, v =>
    if k' == k then (k, v) :: rest else (k', v') :: setAssoc rest k v

/-- The manager's configuration: `url` (set by `setURL`) and
`localIdeographFontFamily`; JavaScript truthiness (empty string is falsy). -/
structure GlyphConfig where
  url : Option Str
  localIdeographFontFamily : Option Str

def jsTruthyOpt : Option Str → Bool
  | some s => !s.isEmpty
  | none => false

/-- The mutable state shared by all lookups: the per-stack entries, plus a
counter minting promise identities, a counter minting locally synthesized
glyphs, and the log of range fetches handed to `loadGlyphRange`. -/
structure GMState where
  entries : List (Str × Entry)
  nextReq : Nat
  synthCount : Nat
  fetchLog : List (Str × Nat × Nat)
deriving DecidableEq

def entryOf (st : GMState) (stack : Str) : Entry :=
  (st.entries.lookup stack).getD Entry.empty

/-- `String.prototype.codePointAt(0)`. -/
def codePointAt0 : Str → Option Nat
  | [] => none
  | [u] => some u
  | u :: l :: _ =>
    if isHighSurrogate u && isLowSurrogate l then some (decodePair u l) else some u

def isJsWhitespace (u : Nat) : Bool :=
  (decide (0x9 ≤ u) && decide (u ≤ 0xD)) || u == 0x20 || u == 0xA0 || u == 0x1680 ||
    (decide (0x2000 ≤ u) && decide (u ≤ 0x200A)) || u == 0x2028 || u == 0x2029 ||
    u == 0x202F || u == 0x205F || u == 0x3000 || u == 0xFEFF

/-- `String.prototype.trim`. -/
def jsTrim (s : Str) : Str :=
  ((s.dropWhile isJsWhitespace).reverse.dropWhile isJsWhitespace).reverse

/-- `GlyphManager._doesSegmentSupportLocalGlyph`. -/
def doesSegmentSupportLocalGlyph (cfg : GlyphConfig) (id : Str) : Bool :=
  jsTruthyOpt cfg.localIdeographFontFamily &&
    (match codePointAt0 id with
     | some code =>
       unicodeBlockLookup "Devanagari" code ||
       unicodeBlockLookup "Bengali" code ||
       unicodeBlockLookup "Gujarati" code ||
       unicodeBlockLookup "Tamil" code ||
       unicodeBlockLookup "Telugu" code ||
       unicodeBlockLookup "Tibetan" code ||
       unicodeBlockLookup "Myanmar" code ||
       unicodeBlockLookup "Khmer" code ||
       unicodeBlockLookup "CJK Unified Ideographs" code ||
       unicodeBlockLookup "Hangul Syllables" code ||
       unicodeBlockLookup "Hiragana" code ||
       unicodeBlockLookup "Katakana" code
     | none => false)

/-- `GlyphManager._doesCharShouldHaveDoubleResolution`. -/
def doesCharShouldHaveDoubleResolution (id : Str) : Bool :=
  match codePointAt0 id with
  | some code =>
    unicodeBlockLookup "CJK Unified Ideographs" code ||
    unicodeBlockLookup "Hangul Syllables" code ||
    unicodeBlockLookup "Hiragana" code ||
    unicodeBlockLookup "Katakana" code
  | none => false

/-- How one lookup finishes its synchronous prefix. -/
inductive LookupOutcome where
  /-- Returned `{stack, id, glyph}`: `none` is `undefined`, `some none`
  the explicit-absent `null`, `some (some g)` a glyph. -/
  | ret (g : Option (Option Glyph))
  /-- `throw new Error('glyphs > 65535 not supported')`. -/
  | errRangeOverflow
  /-- `throw new Error('glyphsUrl is not set')`. -/
  | errNoUrl
  /-- Suspended on `await entry.requests[range]`; `started` records whether
  this lookup created the request (issuing the fetch) or joined it. -/
  | awaits (range : Nat) (req : Nat) (started : Bool)
deriving DecidableEq

/-- The synchronous prefix of `_getAndCacheGlyphsPromise stack id`. -/
def stepA (cfg : GlyphConfig) (st : GMState) (stack id : Str) :
    GMState × LookupOutcome :=
  let entry := entryOf st stack
  let st0 := { st with entries := setAssoc st.entries stack entry }
  let glyph? := entry.glyphs.lookup id
  if jsTrim id == ([] : Str) then (st0, .ret glyph?)
  else if doesSegmentSupportLocalGlyph cfg id then
    -- `_tinySDF` always returns a glyph here, since the eligibility test
    -- has already required `localIdeographFontFamily` to be truthy
    let g := Glyph.localSynth st0.synthCount
    let entry1 := { entry with glyphs := setAssoc entry.glyphs id (some g) }
    ({ st0 with
        entries := setAssoc st0.entries stack entry1,
        synthCount := st0.synthCount + 1 },
      .ret (some (some g)))
  else if glyph?.isSome then (st0, .ret glyph?)
  else
    match codePointAt0 id with
    | none => (st0, .ret (some none))
    | some codePoint =>
      let range := codePoint / 256
      if range * 256 > 65535 then (st0, .errRangeOverflow)
      else if entry.ranges.contains range then (st0, .ret glyph?)
      else if !(jsTruthyOpt cfg.url) then (st0, .errNoUrl)
      else
        match entry.requests.lookup range with
        | some req => (st0, .awaits range req false)
        | none =>
          let req := st0.nextReq
          let entry1 := { entry with requests := setAssoc entry.requests range req }
          ({ st0 with
              entries := setAssoc st0.entries stack entry1,
              nextReq := st0.nextReq + 1,
              fetchLog := st0.fetchLog ++ [(stack, range, req)] },
            .awaits range req true)

/-- The resumption of a lookup after its awaited request resolved with
`resp`: merge every id of the response into the cache, mark the range
resolved, and return `response[id] || null`. -/
def stepB (st : GMState) (stack id : Str) (range : Nat)
    (resp : List (Str × Option Glyph)) : GMState × Option Glyph :=
  let entry := entryOf st stack
  let entry1 := { entry with
    glyphs := resp.foldl (fun g kv => setAssoc g kv.1 kv.2) entry.glyphs,
    ranges := if entry.ranges.contains range then entry.ranges
              else entry.ranges ++ [range] }
  ({ st with entries := setAssoc st.entries stack entry1 },
    match resp.lookup id with
    | some (some g) => some g
    | _ => none)

/-- A sequence of lookups, each running its synchronous prefix in turn:
this is the JavaScript execution order of the lookups of one `getGlyphs`
call, and of any interleaving of concurrent calls. -/
def stepAList (cfg : GlyphConfig) (stack : Str) :
    GMState → List Str → GMState × List LookupOutcome
  | st, [] => (st, [])
  | st, id :: ids =>
    let r := stepA cfg st stack id
    let rest := stepAList cfg stack r.1 ids
    (rest.1, r.2 :: rest.2)


/-! ## Association list lemmas -/

theorem lookup_setAssoc_self {α β : Type} [BEq α] [LawfulBEq α]
    (l : List (α × β)) (k : α) (v : β) : (setAssoc l k v).lookup k = some v := by
  induction l with
  | nil => simp [setAssoc, List.lookup]
  | cons p rest ih =>
    rcases p with ⟨k', v'⟩
    cases he : (k' == k) with
    | true => simp [setAssoc, he, List.lookup]
    | false =>
      have hne : k ≠ k' := fun hh => by subst hh; simp at he
      simp only [setAssoc, he, Bool.false_eq_true, if_false]
      simp only [List.lookup, beq_eq_false_iff_ne.mpr hne]
      exact ih

theorem lookup_setAssoc_ne {α β : Type} [BEq α] [LawfulBEq α]
    (l : List (α × β)) (k k' : α) (v : β) (h : k' ≠ k) :
    (setAssoc l k v).lookup k' = l.lookup k' := by
  induction l with
  | nil => simp [setAssoc, List.lookup, beq_eq_false_iff_ne.mpr h]
  | cons p rest ih =>
    rcases p with ⟨k₀, v₀⟩
    cases he : (k₀ == k) with
    | true =>
      have hk : k₀ = k := by simpa using he
      subst hk
      simp only [setAssoc, he, if_true]
      simp only [List.lookup, beq_eq_false_iff_ne.mpr h]
    | false =>
      simp only [setAssoc, he, Bool.false_eq_true, if_false]
      cases he' : (k' == k₀) with
      | true => simp only [List.lookup, he']
      | false =>
        simp only [List.lookup, he']
        exact ih

theorem setAssoc_of_lookup_eq {α β : Type} [BEq α] [LawfulBEq α]
    {l : List (α × β)} {k : α} {v : β} (h : l.lookup k = some v) :
    setAssoc l k v = l := by
  induction l with
  | nil => simp [List.lookup] at h
  | cons p rest ih =>
    rcases p with ⟨k₀, v₀⟩
    cases he : (k == k₀) with
    | true =>
      have hk : k = k₀ := by simpa using he
      simp only [List.lookup, he] at h
      simp only [Option.some.injEq] at h
      subst hk; subst h
      simp [setAssoc]
    | false =>
      simp only [List.lookup, he] at h
      have hne : k₀ ≠ k := fun hh => by subst hh; simp at he
      simp only [setAssoc, beq_eq_false_iff_ne.mpr hne, Bool.false_eq_true, if_false]
      rw [ih h]

theorem setAssoc_setAssoc {α β : Type} [BEq α] [LawfulBEq α]
    (l : List (α × β)) (k : α) (v v' : β) :
    setAssoc (setAssoc l k v) k v' = setAssoc l k v' := by
  induction l with
  | nil => simp [setAssoc]
  | cons p rest ih =>
    rcases p with ⟨k₀, v₀⟩
    cases he : (k₀ == k) with
    | true =>
      simp only [setAssoc, he, if_true]
      simp [setAssoc]
    | false =>
      simp only [setAssoc, he, Bool.false_eq_true, if_false, ih]

theorem entryOf_setAssoc_self (st : GMState) (stack : Str) (e : Entry) :
    entryOf { st with entries := setAssoc st.entries stack e } stack = e := by
  simp [entryOf, lookup_setAssoc_self]

/-! ## Behaviour of `stepA` on the remote-fetch path -/

/-- A lookup that reaches the fetch path while a request for its range is
already pending joins that request and leaves the state untouched. -/
theorem stepA_joins (cfg : GlyphConfig) (st : GMState) (stack id : Str) (cp k : Nat)
    (hws : (jsTrim id == ([] : Str)) = false)
    (hlocal : doesSegmentSupportLocalGlyph cfg id = false)
    (hmiss : (entryOf st stack).glyphs.lookup id = none)
    (hcp : codePointAt0 id = some cp)
    (hov : ¬ cp / 256 * 256 > 65535)
    (hrng : (entryOf st stack).ranges.contains (cp / 256) = false)
    (hurl : jsTruthyOpt cfg.url = true)
    (hreq : (entryOf st stack).requests.lookup (cp / 256) = some k) :
    stepA cfg st stack id = (st, .awaits (cp / 256) k false) := by
  have hstack : st.entries.lookup stack = some (entryOf st stack) := by
    cases hl : st.entries.lookup stack with
    | some e => simp [entryOf, hl]
    | none => rw [entryOf, hl] at hreq; simp [Entry.empty, List.lookup] at hreq
  unfold stepA
  simp only [hws, Bool.false_eq_true, if_false, hlocal, hmiss, Option.isSome_none,
    hcp, if_neg hov, hrng, hurl, Bool.not_true, hreq, setAssoc_of_lookup_eq hstack]

/-- A lookup that reaches the fetch path with no pending request for its
range starts exactly one fetch and records the pending request. -/
theorem stepA_starts (cfg : GlyphConfig) (st : GMState) (stack id : Str) (cp : Nat)
    (hws : (jsTrim id == ([] : Str)) = false)
    (hlocal : doesSegmentSupportLocalGlyph cfg id = false)
    (hmiss : (entryOf st stack).glyphs.lookup id = none)
    (hcp : codePointAt0 id = some cp)
    (hov : ¬ cp / 256 * 256 > 65535)
    (hrng : (entryOf st stack).ranges.contains (cp / 256) = false)
    (hurl : jsTruthyOpt cfg.url = true)
    (hreq : (entryOf st stack).requests.lookup (cp / 256) = none) :
    stepA cfg st stack id =
      ({ st with
          entries := setAssoc st.entries stack
            { entryOf st stack with
                requests := setAssoc (entryOf st stack).requests (cp / 256) st.nextReq },
          nextReq := st.nextReq + 1,
          fetchLog := st.fetchLog ++ [(stack, cp / 256, st.nextReq)] },
        .awaits (cp / 256) st.nextReq true) := by
  unfold stepA
  simp only [hws, Bool.false_eq_true, if_false, hlocal, hmiss, Option.isSome_none,
    hcp, if_neg hov, hrng, hurl, Bool.not_true, hreq, setAssoc_setAssoc]

/-- Once a range is marked resolved, no lookup for an id in that range ever
issues a fetch or suspends: every branch of the resolution either returns
or throws before touching `entry.requests`. -/
theorem stepA_no_fetch_of_marked (cfg : GlyphConfig) (st : GMState) (stack id : Str)
    (cp : Nat) (hcp : codePointAt0 id = some cp)
    (hmk : (entryOf st stack).ranges.contains (cp / 256) = true) :
    (stepA cfg st stack id).1.fetchLog = st.fetchLog ∧
    ∀ r' k b, (stepA cfg st stack id).2 ≠ .awaits r' k b := by
  unfold stepA
  simp only [hcp]
  by_cases h1 : (jsTrim id == ([] : Str)) = true
  · simp [h1]
  · simp only [h1, Bool.false_eq_true, if_false]
    by_cases h2 : doesSegmentSupportLocalGlyph cfg id = true
    · simp [h2]
    · simp only [h2, Bool.false_eq_true, if_false]
      by_cases h3 : ((entryOf st stack).glyphs.lookup id).isSome = true
      · simp [h3]
      · simp only [h3, Bool.false_eq_true, if_false]
        by_cases h4 : cp / 256 * 256 > 65535
        · simp [if_pos h4]
        · have hmk' : cp / 256 ∈ (entryOf st stack).ranges := by simpa using hmk
          simp [if_neg h4, hmk']

/-- A cold lookup for range `r`: it misses every early exit and reaches the
fetch path with computed range `r`. -/
def ColdId (cfg : GlyphConfig) (st : GMState) (stack : Str) (r : Nat) (id : Str) : Prop :=
  (jsTrim id == ([] : Str)) = false ∧
  doesSegmentSupportLocalGlyph cfg id = false ∧
  (entryOf st stack).glyphs.lookup id = none ∧
  ∃ cp, codePointAt0 id = some cp ∧ cp / 256 = r ∧ ¬ r * 256 > 65535

/-- While a request for `r` is pending, any sequence of cold lookups for
ids in `r` leaves the state untouched and every one of them joins the same
pending request. -/
theorem stepAList_joins (cfg : GlyphConfig) (stack : Str) (r k : Nat)
    (st : GMState) (ids : List Str)
    (hurl : jsTruthyOpt cfg.url = true)
    (hreq : (entryOf st stack).requests.lookup r = some k)
    (hrng : (entryOf st stack).ranges.contains r = false)
    (hall : ∀ id ∈ ids, ColdId cfg st stack r id) :
    stepAList cfg stack st ids = (st, ids.map (fun _ => .awaits r k false)) := by
  induction ids with
  | nil => rfl
  | cons id ids ih =>
    obtain ⟨hws, hlocal, hmiss, cp, hcp, hr, hov⟩ := hall id (List.mem_cons_self id ids)
    have hstep : stepA cfg st stack id = (st, .awaits r k false) := by
      have := stepA_joins cfg st stack id cp k hws hlocal hmiss hcp
        (by rw [hr]; exact hov) (by rw [hr]; exact hrng) hurl (by rw [hr]; exact hreq)
      rw [hr] at this
      exact this
    rw [stepAList, hstep, ih (fun id' h' => hall id' (List.mem_cons_of_mem id h'))]
    simp

/-- C4: for a given font stack, any number of lookups (within one
`getGlyphs` call or across interleaved concurrent calls, here: any
sequence of synchronous lookup prefixes) for ids whose codepoints fall in
the same cold range trigger exactly one range fetch, and all of them await
the same pending request: the first lookup records request `st.nextReq`
and appends the single fetch to the log, and every later lookup joins that
same request without fetching. -/
theorem C4_fetch_coalescing (cfg : GlyphConfig) (st : GMState) (stack : Str) (r : Nat)
    (id0 : Str) (ids : List Str)
    (hurl : jsTruthyOpt cfg.url = true)
    (hreq : (entryOf st stack).requests.lookup r = none)
    (hrng : (entryOf st stack).ranges.contains r = false)
    (hall : ∀ id ∈ id0 :: ids, ColdId cfg st stack r id) :
    (stepAList cfg stack st (id0 :: ids)).1.fetchLog
        = st.fetchLog ++ [(stack, r, st.nextReq)] ∧
    (stepAList cfg stack st (id0 :: ids)).2
        = .awaits r st.nextReq true :: ids.map (fun _ => .awaits r st.nextReq false) := by
  obtain ⟨hws, hlocal, hmiss, cp, hcp, hr, hov⟩ := hall id0 (List.mem_cons_self id0 ids)
  have hstep := stepA_starts cfg st stack id0 cp hws hlocal hmiss hcp
    (by rw [hr]; exact hov) (by rw [hr]; exact hrng) hurl (by rw [hr]; exact hreq)
  rw [hr] at hstep
  set st1 : GMState :=
    { st with
        entries := setAssoc st.entries stack
          { entryOf st stack with
              requests := setAssoc (entryOf st stack).requests r st.nextReq },
        nextReq := st.nextReq + 1,
        fetchLog := st.fetchLog ++ [(stack, r, st.nextReq)] } with hst1
  have hentry1 : entryOf st1 stack
      = { entryOf st stack with
            requests := setAssoc (entryOf st stack).requests r st.nextReq } := by
    rw [hst1]; exact entryOf_setAssoc_self _ _ _
  have hrest : stepAList cfg stack st1 ids
      = (st1, ids.map (fun _ => .awaits r st.nextReq false)) := by
    refine stepAList_joins cfg stack r st.nextReq st1 ids hurl ?_ ?_ ?_
    · rw [hentry1]; exact lookup_setAssoc_self _ _ _
    · rw [hentry1]; exact hrng
    · intro id' h'
      obtain ⟨a, b, c, cp', d, e, f⟩ := hall id' (List.mem_cons_of_mem id0 h')
      exact ⟨a, b, by rw [hentry1]; exact c, cp', d, e, f⟩
  rw [stepAList, hstep, hrest]
  simp

/-- C4 witness: two ids `A`, `B` in range 0, cold empty cache. -/
theorem C4_fetch_coalescing_witness :
    (stepAList ⟨some [0x75], none⟩ [0x73] ⟨[], 0, 0, []⟩ [[0x41], [0x42]]).1.fetchLog
        = [([0x73], 0, 0)] ∧
    (stepAList ⟨some [0x75], none⟩ [0x73] ⟨[], 0, 0, []⟩ [[0x41], [0x42]]).2
        = [.awaits 0 0 true, .awaits 0 0 false] := by
  have h := C4_fetch_coalescing ⟨some [0x75], none⟩ ⟨[], 0, 0, []⟩ [0x73] 0
    [0x41] [[0x42]] (by decide) (by decide) (by decide)
    (by
      intro id hid
      simp only [List.mem_cons, List.not_mem_nil, or_false] at hid
      rcases hid with rfl | rfl
      · exact ⟨by decide, by decide, by decide, 0x41, by decide, by decide, by decide⟩
      · exact ⟨by decide, by decide, by decide, 0x42, by decide, by decide, by decide⟩)
  simpa using h

/-- C3 (amended): all lookups awaiting a range share one request, whose
failure therefore reaches each of them, and a rejection changes nothing:
`entry.requests[range]` is never cleared and `entry.ranges[range]` is never
set (the code has no rejection handler, so the post-failure state is the
pre-failure state).  Consequently, a subsequent cold lookup for an id in
that range joins the SAME rejected request `k` — failing like its
predecessors — and never starts a fresh fetch: the state (including the
fetch log) is returned unchanged. -/
theorem C3_failure_not_retried (cfg : GlyphConfig) (st : GMState) (stack id : Str)
    (r k : Nat)
    (hurl : jsTruthyOpt cfg.url = true)
    (hreq : (entryOf st stack).requests.lookup r = some k)
    (hrng : (entryOf st stack).ranges.contains r = false)
    (hid : ColdId cfg st stack r id) :
    stepA cfg st stack id = (st, .awaits r k false) := by
  obtain ⟨hws, hlocal, hmiss, cp, hcp, hr, hov⟩ := hid
  have h := stepA_joins cfg st stack id cp k hws hlocal hmiss hcp
    (by rw [hr]; exact hov) (by rw [hr]; exact hrng) hurl (by rw [hr]; exact hreq)
  rw [hr] at h
  exact h

/-- C3 witness: a state in which request `0` for range `0` is pending (it
has just failed; failure mutates nothing) and a cold lookup for id `B`. -/
theorem C3_failure_not_retried_witness :
    stepA ⟨some [0x75], none⟩
        ⟨[([0x73], ⟨[], [(0, 0)], []⟩)], 1, 0, [([0x73], 0, 0)]⟩ [0x73] [0x42]
      = (⟨[([0x73], ⟨[], [(0, 0)], []⟩)], 1, 0, [([0x73], 0, 0)]⟩,
         .awaits 0 0 false) :=
  C3_failure_not_retried ⟨some [0x75], none⟩
    ⟨[([0x73], ⟨[], [(0, 0)], []⟩)], 1, 0, [([0x73], 0, 0)]⟩ [0x73] [0x42] 0 0
    (by decide) (by decide) (by decide)
    ⟨by decide, by decide, by decide, 0x42, by decide, by decide, by decide⟩

/-- C3 counterexample: the claim says a subsequent lookup "starts a fresh
fetch to the collaborator rather than observing the old failed request".
It does not: after the lookup of `A` started request `0` for range `0` and
that fetch failed (leaving the state unchanged — the code never clears
`entry.requests`), a second lookup for `B` in the same range returns the
state unchanged, joins the old request `0` (`started = false`), and the
fetch log still records exactly one fetch. -/
theorem C3_counterexample :
    (stepA ⟨some [0x75], none⟩
        (stepA ⟨some [0x75], none⟩ ⟨[], 0, 0, []⟩ [0x73] [0x41]).1 [0x73] [0x42]).2
      = .awaits 0 0 false ∧
    (stepA ⟨some [0x75], none⟩
        (stepA ⟨some [0x75], none⟩ ⟨[], 0, 0, []⟩ [0x73] [0x41]).1 [0x73] [0x42]).1.fetchLog
      = [([0x73], 0, 0)] := by
  constructor <;> decide

theorem lookup_foldl_setAssoc_of_not_mem {α β : Type} [BEq α] [LawfulBEq α]
    (resp : List (α × β)) (g0 : List (α × β)) (k : α)
    (hk : k ∉ resp.map Prod.fst) :
    (resp.foldl (fun g kv => setAssoc g kv.1 kv.2) g0).lookup k = g0.lookup k := by
  induction resp generalizing g0 with
  | nil => rfl
  | cons kv rest ih =>
    simp only [List.map_cons, List.mem_cons, not_or] at hk
    rw [List.foldl_cons, ih _ hk.2, lookup_setAssoc_ne _ _ _ _ hk.1]

theorem lookup_foldl_setAssoc_mem {α β : Type} [BEq α] [LawfulBEq α]
    (resp : List (α × β)) (g0 : List (α × β)) (hnd : (resp.map Prod.fst).Nodup) :
    ∀ p ∈ resp, (resp.foldl (fun g kv => setAssoc g kv.1 kv.2) g0).lookup p.1 = some p.2 := by
  induction resp generalizing g0 with
  | nil => intro p hp; cases hp
  | cons kv rest ih =>
    simp only [List.map_cons, List.nodup_cons] at hnd
    intro p hp
    rcases List.mem_cons.mp hp with rfl | hm
    · rw [List.foldl_cons,
        lookup_foldl_setAssoc_of_not_mem rest _ p.1 hnd.1,
        lookup_setAssoc_self]
    · exact ih _ hnd.2 p hm

/-- C2 (amended): when a pending range request resolves, the resuming
lookup merges the response and marks the range: every id PRESENT in the
response (response keys are unique object keys) gets a definitive cache
entry — present or explicit-absent — and afterwards no lookup for any id
whose computed range is the resolved one ever fetches or suspends again.
Ids of the range that the response omitted remain WITHOUT an entry (the
merge loop only writes the response's own keys); later lookups return
`undefined` for them, but still without fetching. -/
theorem C2_resolved_range (st : GMState) (stack id0 : Str) (r : Nat)
    (resp : List (Str × Option Glyph)) (hnd : (resp.map Prod.fst).Nodup) :
    (∀ p ∈ resp,
      (entryOf (stepB st stack id0 r resp).1 stack).glyphs.lookup p.1 = some p.2) ∧
    (entryOf (stepB st stack id0 r resp).1 stack).ranges.contains r = true ∧
    (∀ cfg st' stack' id cp, codePointAt0 id = some cp →
      (entryOf st' stack').ranges.contains (cp / 256) = true →
      (stepA cfg st' stack' id).1.fetchLog = st'.fetchLog ∧
      ∀ r' k b, (stepA cfg st' stack' id).2 ≠ .awaits r' k b) := by
  refine ⟨?_, ?_, fun cfg st' stack' id cp hcp hmk =>
    stepA_no_fetch_of_marked cfg st' stack' id cp hcp hmk⟩
  · intro p hp
    unfold stepB
    rw [entryOf_setAssoc_self]
    exact lookup_foldl_setAssoc_mem resp _ hnd p hp
  · unfold stepB
    rw [entryOf_setAssoc_self]
    by_cases h : r ∈ (entryOf st stack).ranges <;> simp [h]

theorem entryOf_mk_setAssoc (entries : List (Str × Entry)) (stack : Str) (e : Entry)
    (nq sc : Nat) (fl : List (Str × Nat × Nat)) :
    entryOf ⟨setAssoc entries stack e, nq, sc, fl⟩ stack = e := by
  simp [entryOf, lookup_setAssoc_self]

/-! ## Eligible ids are not whitespace-only -/

set_option maxHeartbeats 2000000 in
theorem localBlocks_unit_facts {code : Nat}
    (h : (unicodeBlockLookup "Devanagari" code ||
          unicodeBlockLookup "Bengali" code ||
          unicodeBlockLookup "Gujarati" code ||
          unicodeBlockLookup "Tamil" code ||
          unicodeBlockLookup "Telugu" code ||
          unicodeBlockLookup "Tibetan" code ||
          unicodeBlockLookup "Myanmar" code ||
          unicodeBlockLookup "Khmer" code ||
          unicodeBlockLookup "CJK Unified Ideographs" code ||
          unicodeBlockLookup "Hangul Syllables" code ||
          unicodeBlockLookup "Hiragana" code ||
          unicodeBlockLookup "Katakana" code) = true) :
    code < 0x10000 ∧ isJsWhitespace code = false := by
  simp only [unicodeBlockLookup, Bool.or_eq_true, Bool.and_eq_true,
    decide_eq_true_eq] at h
  refine ⟨by omega, ?_⟩
  rw [Bool.eq_false_iff]
  intro hw
  simp only [isJsWhitespace, Bool.or_eq_true, Bool.and_eq_true, decide_eq_true_eq,
    beq_iff_eq] at hw
  omega

theorem mem_dropWhile_self {P : Nat → Bool} {l : List Nat} {u : Nat}
    (hu : u ∈ l) (hP : P u = false) : u ∈ l.dropWhile P := by
  induction l with
  | nil => cases hu
  | cons v rest ih =>
    rw [List.dropWhile_cons]
    split
    · rcases List.mem_cons.mp hu with rfl | hm
      · rename_i hv; rw [hv] at hP; cases hP
      · exact ih hm
    · exact hu

theorem jsTrim_ne_nil {s : Str} {u : Nat} (hu : u ∈ s)
    (hP : isJsWhitespace u = false) : (jsTrim s == ([] : Str)) = false := by
  have h4 : u ∈ jsTrim s :=
    List.mem_reverse.mpr (mem_dropWhile_self (List.mem_reverse.mpr
      (mem_dropWhile_self hu hP)) hP)
  cases he : jsTrim s with
  | nil => rw [he] at h4; cases h4
  | cons a l => rfl

theorem eligible_not_ws (cfg : GlyphConfig) (id : Str)
    (hel : doesSegmentSupportLocalGlyph cfg id = true) :
    (jsTrim id == ([] : Str)) = false := by
  unfold doesSegmentSupportLocalGlyph at hel
  rw [Bool.and_eq_true] at hel
  obtain ⟨-, hm⟩ := hel
  cases id with
  | nil => simp [codePointAt0] at hm
  | cons u rest =>
    cases rest with
    | nil =>
      simp only [codePointAt0] at hm
      exact jsTrim_ne_nil (List.mem_cons_self _ _) (localBlocks_unit_facts hm).2
    | cons l rest' =>
      simp only [codePointAt0] at hm
      by_cases hs : (isHighSurrogate u && isLowSurrogate l) = true
      · rw [if_pos hs] at hm
        have hf := localBlocks_unit_facts hm
        have hd : 0x10000 ≤ decodePair u l := by unfold decodePair; omega
        omega
      · rw [if_neg hs] at hm
        exact jsTrim_ne_nil (List.mem_cons_self _ _) (localBlocks_unit_facts hm).2

/-- C7: when the local font family is configured and the id's leading
codepoint is in an eligible block, the lookup synthesizes a FRESH glyph
(`localSynth` stamped with the current synthesis counter), overwrites any
cached value for that id — including a previously cached remote glyph —
returns it, and leaves the entry's `requests` and `ranges` (and the fetch
log) untouched. -/
theorem C7_local_precedence (cfg : GlyphConfig) (st : GMState) (stack id : Str)
    (hel : doesSegmentSupportLocalGlyph cfg id = true) :
    stepA cfg st stack id
      = ({ st with
            entries := setAssoc st.entries stack
              { entryOf st stack with
                  glyphs := setAssoc (entryOf st stack).glyphs id
                    (some (Glyph.localSynth st.synthCount)) },
            synthCount := st.synthCount + 1 },
          .ret (some (some (Glyph.localSynth st.synthCount)))) ∧
    (entryOf (stepA cfg st stack id).1 stack).glyphs.lookup id
        = some (some (Glyph.localSynth st.synthCount)) ∧
    (entryOf (stepA cfg st stack id).1 stack).requests = (entryOf st stack).requests ∧
    (entryOf (stepA cfg st stack id).1 stack).ranges = (entryOf st stack).ranges ∧
    (stepA cfg st stack id).1.fetchLog = st.fetchLog := by
  have hmain : stepA cfg st stack id
      = ({ st with
            entries := setAssoc st.entries stack
              { entryOf st stack with
                  glyphs := setAssoc (entryOf st stack).glyphs id
                    (some (Glyph.localSynth st.synthCount)) },
            synthCount := st.synthCount + 1 },
          .ret (some (some (Glyph.localSynth st.synthCount)))) := by
    unfold stepA
    simp only [eligible_not_ws cfg id hel, Bool.false_eq_true, if_false, hel, if_true,
      setAssoc_setAssoc]
  refine ⟨hmain, ?_, ?_, ?_, ?_⟩ <;>
    simp only [hmain, entryOf_mk_setAssoc, lookup_setAssoc_self]

def c7cfg : GlyphConfig := ⟨some [0x75], some [0x66]⟩

def c7st : GMState := ⟨[([0x73], ⟨[([0x4E00], some (Glyph.remote 5))], [], []⟩)], 0, 0, []⟩

/-- C7 witness: a CJK id with a remote glyph already cached for it. -/
theorem C7_local_precedence_witness :
    doesSegmentSupportLocalGlyph c7cfg [0x4E00] = true ∧
    (stepA c7cfg c7st [0x73] [0x4E00]
        = ({ c7st with
              entries := setAssoc c7st.entries [0x73]
                { entryOf c7st [0x73] with
                    glyphs := setAssoc (entryOf c7st [0x73]).glyphs [0x4E00]
                      (some (Glyph.localSynth c7st.synthCount)) },
              synthCount := c7st.synthCount + 1 },
            .ret (some (some (Glyph.localSynth c7st.synthCount)))) ∧
      (entryOf (stepA c7cfg c7st [0x73] [0x4E00]).1 [0x73]).glyphs.lookup [0x4E00]
          = some (some (Glyph.localSynth c7st.synthCount)) ∧
      (entryOf (stepA c7cfg c7st [0x73] [0x4E00]).1 [0x73]).requests
          = (entryOf c7st [0x73]).requests ∧
      (entryOf (stepA c7cfg c7st [0x73] [0x4E00]).1 [0x73]).ranges
          = (entryOf c7st [0x73]).ranges ∧
      (stepA c7cfg c7st [0x73] [0x4E00]).1.fetchLog = c7st.fetchLog) :=
  ⟨by decide, C7_local_precedence c7cfg c7st [0x73] [0x4E00] (by decide)⟩

/-- C8: a lookup that is not whitespace, not locally eligible and not
cached, whose computed range satisfies `range * 256 > 65535`, throws the
range-overflow error and starts no fetch: the request map, the range map
and the fetch log are unchanged. -/
theorem C8_overflow_rejection (cfg : GlyphConfig) (st : GMState) (stack id : Str)
    (cp : Nat)
    (hws : (jsTrim id == ([] : Str)) = false)
    (hlocal : doesSegmentSupportLocalGlyph cfg id = false)
    (hmiss : (entryOf st stack).glyphs.lookup id = none)
    (hcp : codePointAt0 id = some cp)
    (hover : cp / 256 * 256 > 65535) :
    stepA cfg st stack id
      = ({ st with entries := setAssoc st.entries stack (entryOf st stack) },
          .errRangeOverflow) ∧
    (entryOf (stepA cfg st stack id).1 stack).requests = (entryOf st stack).requests ∧
    (entryOf (stepA cfg st stack id).1 stack).ranges = (entryOf st stack).ranges ∧
    (entryOf (stepA cfg st stack id).1 stack).glyphs = (entryOf st stack).glyphs ∧
    (stepA cfg st stack id).1.fetchLog = st.fetchLog := by
  have hmain : stepA cfg st stack id
      = ({ st with entries := setAssoc st.entries stack (entryOf st stack) },
          .errRangeOverflow) := by
    unfold stepA
    simp only [hws, Bool.false_eq_true, if_false, hlocal, hmiss, Option.isSome_none,
      hcp, if_pos hover]
  refine ⟨hmain, ?_, ?_, ?_, ?_⟩ <;>
    simp only [hmain, entryOf_mk_setAssoc]

/-- C8 witness: the id U+10000 (the surrogate pair D800 DC00), whose range
256 starts at 65536. -/
theorem C8_overflow_rejection_witness :
    codePointAt0 [0xD800, 0xDC00] = some 0x10000 ∧
      (stepA ⟨some [0x75], none⟩ ⟨[], 0, 0, []⟩ [0x73] [0xD800, 0xDC00]).2
        = .errRangeOverflow ∧
      (stepA ⟨some [0x75], none⟩ ⟨[], 0, 0, []⟩ [0x73] [0xD800, 0xDC00]).1.fetchLog = [] :=
  ⟨by decide, by
    have h := C8_overflow_rejection ⟨some [0x75], none⟩ ⟨[], 0, 0, []⟩ [0x73]
      [0xD800, 0xDC00] 0x10000 (by decide) (by decide) (by decide) (by decide) (by decide)
    exact ⟨by rw [h.1], by rw [h.1]⟩⟩

/-- C2 counterexample: after the range-0 request (started by a lookup of
`A`) resolves with an EMPTY response, the range is marked resolved, yet the
id `B` — whose computed range is 0 — has no entry in `glyphs` at all
(neither a present glyph nor the explicit-absent `null`): the merge loop
writes only the response's own keys, so "every id whose computed range is
r has a definitive entry" is false. -/
theorem C2_counterexample :
    (entryOf (stepB (stepA ⟨some [0x75], none⟩ ⟨[], 0, 0, []⟩ [0x73] [0x41]).1
        [0x73] [0x41] 0 []).1 [0x73]).ranges.contains 0 = true ∧
    (entryOf (stepB (stepA ⟨some [0x75], none⟩ ⟨[], 0, 0, []⟩ [0x73] [0x41]).1
        [0x73] [0x41] 0 []).1 [0x73]).glyphs.lookup [0x42] = none ∧
    codePointAt0 [0x42] = some 0x42 ∧ (0x42 : Nat) / 256 = 0 := by
  refine ⟨by decide, by decide, by decide, by decide⟩

/-- C2 witness: a response carrying one present and one explicit-absent id. -/
theorem C2_resolved_range_witness :
    ((([([0x41], some (Glyph.remote 3)), ([0x43], (none : Option Glyph))] :
        List (Str × Option Glyph)).map Prod.fst).Nodup) ∧
    ((∀ p ∈ ([([0x41], some (Glyph.remote 3)), ([0x43], none)] : List (Str × Option Glyph)),
      (entryOf (stepB ⟨[], 0, 0, []⟩ [0x73] [0x41] 0
          [([0x41], some (Glyph.remote 3)), ([0x43], none)]).1 [0x73]).glyphs.lookup p.1
        = some p.2) ∧
    (entryOf (stepB ⟨[], 0, 0, []⟩ [0x73] [0x41] 0
        [([0x41], some (Glyph.remote 3)), ([0x43], none)]).1 [0x73]).ranges.contains 0
      = true ∧
    (∀ cfg st' stack' id cp, codePointAt0 id = some cp →
      (entryOf st' stack').ranges.contains (cp / 256) = true →
      (stepA cfg st' stack' id).1.fetchLog = st'.fetchLog ∧
      ∀ r' k b, (stepA cfg st' stack' id).2 ≠ .awaits r' k b)) :=
  ⟨by decide, C2_resolved_range ⟨[], 0, 0, []⟩ [0x73] [0x41] 0
    [([0x41], some (Glyph.remote 3)), ([0x43], none)] (by decide)⟩

/-! ## The local synthesizer (`TinySDF`)

JavaScript numbers are modelled by exact rationals.  Because the grids
must be evaluated inside proofs, rationals are carried as unreduced
fractions (`Frac`, an integer numerator and denominator), with the
field operations and order defined by cross-multiplication; the final
square roots live in `ℝ` via `Frac.toReal`.  The rasterized coverage is
the collaborator's output and is a parameter: `img k` is the alpha byte
`imgData.data[4 * k + 3]` of pixel `k = y * glyphWidth + x`.  The
`Float64Array`s of the source have the fixed size `size * size` and
persist across draws; only the first `len` cells of the grids and the
cells the envelope algorithm writes are ever read back, so the model
carries exactly those cells (`List.getD` returning `0` elsewhere in
place of stale data). -/

structure Frac where
  num : ℤ
  den : ℤ
deriving DecidableEq

instance : OfNat Frac 0 := ⟨⟨0, 1⟩⟩

instance : OfNat Frac 1 := ⟨⟨1, 1⟩⟩

instance : Add Frac := ⟨fun a b => ⟨a.num * b.den + b.num * a.den, a.den * b.den⟩⟩

instance : Sub Frac := ⟨fun a b => ⟨a.num * b.den - b.num * a.den, a.den * b.den⟩⟩

instance : Mul Frac := ⟨fun a b => ⟨a.num * b.num, a.den * b.den⟩⟩

instance : Neg Frac := ⟨fun a => ⟨-a.num, a.den⟩⟩

/-- Division, keeping the denominator positive when the inputs have
positive denominators (and a nonzero divisor). -/
instance : Div Frac := ⟨fun a b =>
  if 0 ≤ b.num then ⟨a.num * b.den, a.den * b.num⟩
  else ⟨-(a.num * b.den), -(a.den * b.num)⟩⟩

instance : LE Frac := ⟨fun a b => a.num * b.den ≤ b.num * a.den⟩

instance : LT Frac := ⟨fun a b => a.num * b.den < b.num * a.den⟩

instance (a b : Frac) : Decidable (a ≤ b) := Int.decLe _ _

instance (a b : Frac) : Decidable (a < b) := Int.decLt _ _

/-- Numeric equality (JavaScript `===` on numbers). -/
def Frac.valEq (a b : Frac) : Prop := a.num * b.den = b.num * a.den

instance (a b : Frac) : Decidable (a.valEq b) := Int.decEq _ _

/-- `Math.ceil` on an exact fraction with positive denominator. -/
def Frac.ceil (a : Frac) : ℤ := -((-a.num).ediv a.den)

noncomputable def Frac.toReal (a : Frac) : ℝ := (a.num : ℝ) / (a.den : ℝ)

def fracN (n : ℕ) : Frac := ⟨(n : ℤ), 1⟩

def INF : Frac := ⟨10 ^ 20, 1⟩

/-- The constructor options of `TinySDF` (font identification is consumed
only by the collaborator and is omitted). -/
structure SDFOptions where
  fontSize : ℕ
  buffer : ℕ
  radius : Frac
  cutoff : Frac

def SDFOptions.size (o : SDFOptions) : ℕ := o.fontSize + o.buffer * 8

/-- The result of `ctx.measureText` used by `draw`. -/
structure TextMeasure where
  width : Frac
  fontBoundingBoxAscent : Frac
  fontBoundingBoxDescent : Frac
  actualBoundingBoxLeft : Frac
  actualBoundingBoxRight : Frac

structure DrawGeom where
  glyphTop : ℤ
  glyphLeft : ℤ
  glyphWidth : ℤ
  glyphHeight : ℤ
  width : ℤ
  height : ℤ
  len : ℤ

/-- The geometry computed at the top of `TinySDF.draw` (`1.2 = 6/5` and
`1.8 = 9/5` are the source's empirical factors). -/
def drawGeom (o : SDFOptions) (m : TextMeasure) : DrawGeom :=
  let glyphTop : ℤ := (m.fontBoundingBoxAscent * ⟨6, 5⟩).ceil
  let glyphLeft : ℤ := 0
  let glyphWidth : ℤ :=
    max 0 (min ((o.size : ℤ) - o.buffer)
      (m.actualBoundingBoxRight - m.actualBoundingBoxLeft).ceil)
  let glyphHeight : ℤ :=
    min ((o.size : ℤ) - o.buffer) (glyphTop + (m.fontBoundingBoxDescent * ⟨9, 5⟩).ceil)
  let width := glyphWidth + 2 * o.buffer
  let height := glyphHeight + 2 * o.buffer
  ⟨glyphTop, glyphLeft, glyphWidth, glyphHeight, width, height, max (width * height) 0⟩

/-- The covered-pixel loop of `draw`: `gridOuter` is filled with `INF` on
`[0, len)` and `gridInner` with `0`; every pixel with nonzero coverage `a`
writes both grids at `j = (y + buffer) * width + x + buffer`. -/
def coverGrids (buffer width glyphW glyphH : ℕ) (img : ℕ → ℕ) (len : ℕ) :
    List Frac × List Frac :=
  ((List.range glyphH) ×ˢ (List.range glyphW)).foldl
    (fun gs yx =>
      let a : Frac := fracN (img (yx.1 * glyphW + yx.2)) / fracN 255
      if a.valEq 0 then gs
      else
        let j := (yx.1 + buffer) * width + yx.2 + buffer
        if a.valEq 1 then
          (gs.1.set j 0, gs.2.set j INF)
        else
          let d := (⟨1, 2⟩ : Frac) - a
          (gs.1.set j (if (0 : Frac) < d then d * d else 0),
            gs.2.set j (if d < (0 : Frac) then d * d else 0)))
    (List.replicate len INF, List.replicate len 0)

structure EdtScratch where
  f : List Frac
  v : List ℕ
  z : List Frac

def edtInit (grid : List Frac) (offset length : ℕ) : EdtScratch :=
  { f := (List.replicate length 0).set 0 (grid.getD offset 0),
    v := (List.replicate length 0).set 0 0,
    z := ((List.replicate (length + 1) 0).set 0 (-INF)).set 1 INF }

def edtIntersect (f : List Frac) (v : List ℕ) (q k : ℕ) : Frac :=
  let r := v.getD k 0
  (f.getD q 0 - f.getD r 0 + fracN q * fracN q - fracN r * fracN r)
    / (fracN q - fracN r) / ⟨2, 1⟩

/-- The inner do-while of `edt1d`: lower the envelope index until the new
parabola's intersection `s` lies above `z[k]`, or `k` reaches `-1`. -/
def edtFind (f : List Frac) (v : List ℕ) (z : List Frac) (q : ℕ) : ℕ → Frac × ℤ
  | 0 =>
    let s := edtIntersect f v q 0
    if s ≤ z.getD 0 0 then (s, -1) else (s, 0)
  | k + 1 =>
    let s := edtIntersect f v q (k + 1)
    if s ≤ z.getD (k + 1) 0 then edtFind f v z q k else (s, (k : ℤ) + 1)

/-- One iteration of the first loop of `edt1d` (read `f[q]`, find the
insertion point, push the parabola). -/
def edtBuildStep (grid : List Frac) (offset stride : ℕ) (sck : EdtScratch × ℕ) (q : ℕ) :
    EdtScratch × ℕ :=
  let sc := sck.1
  let f1 := sc.f.set q (grid.getD (offset + q * stride) 0)
  let sk := edtFind f1 sc.v sc.z q sck.2
  let k1 := (sk.2 + 1).toNat
  ({ f := f1, v := sc.v.set k1 q, z := (sc.z.set k1 sk.1).set (k1 + 1) INF }, k1)

def edtBuild (grid : List Frac) (offset stride length : ℕ) : EdtScratch × ℕ :=
  (List.range' 1 (length - 1)).foldl (edtBuildStep grid offset stride)
    (edtInit grid offset length, 0)

/-- The while loop of the second pass (`z` holds `INF` above the envelope
top, so the scan never leaves the written cells). -/
def edtSeek (z : List Frac) (q : ℕ) : ℕ → ℕ → ℕ
  | 0, k => k
  | fuel + 1, k => if z.getD (k + 1) 0 < fracN q then edtSeek z q fuel (k + 1) else k

def edtSweep (sc : EdtScratch) (grid : List Frac) (offset stride length : ℕ) : List Frac :=
  ((List.range length).foldl
    (fun gk q =>
      let k := edtSeek sc.z q length gk.2
      let r := sc.v.getD k 0
      let qr : Frac := fracN q - fracN r
      (gk.1.set (offset + q * stride) (sc.f.getD r 0 + qr * qr), k))
    (grid, 0)).1

/-- `edt1d`: 1D squared distance transform along one line of the grid. -/
def edt1d (grid : List Frac) (offset stride length : ℕ) : List Frac :=
  let bk := edtBuild grid offset stride length
  edtSweep bk.1 grid offset stride length

/-- `edt`: the two-pass 2D squared Euclidean distance transform
(Felzenszwalb-Huttenlocher), columns then rows. -/
def edt (grid : List Frac) (x0 y0 width height gridSize : ℕ) : List Frac :=
  let g1 := (List.range' x0 width).foldl
    (fun g x => edt1d g (y0 * gridSize + x) gridSize height) grid
  (List.range' y0 height).foldl (fun g y => edt1d g (y * gridSize + x0) 1 width) g1

structure DrawGrids where
  geom : DrawGeom
  degenerate : Bool
  preOuter : List Frac
  preInner : List Frac
  postOuter : List Frac
  postInner : List Frac

/-- The grid pipeline of `TinySDF.draw`: geometry, early return on a
zero-sized glyph, coverage initialization, and the two `edt` calls. -/
def drawGrids (o : SDFOptions) (m : TextMeasure) (img : ℕ → ℕ) : DrawGrids :=
  let geom := drawGeom o m
  if geom.glyphWidth = 0 ∨ geom.glyphHeight = 0 then
    ⟨geom, true, [], [], [], []⟩
  else
    let W := geom.glyphWidth.toNat
    let H := geom.glyphHeight.toNat
    let width := geom.width.toNat
    let height := geom.height.toNat
    let len := geom.len.toNat
    let pre := coverGrids o.buffer width W H img len
    ⟨geom, false, pre.1, pre.2,
      edt pre.1 0 0 width height width,
      edt pre.2 o.buffer o.buffer W H width⟩

/-- `Math.round`. -/
noncomputable def jsRound (x : ℝ) : ℤ := ⌊x + 1 / 2⌋

/-- Storing an (integral) value into a `Uint8ClampedArray`. -/
def jsUint8Clamp (n : ℤ) : ℕ := (min 255 (max 0 n)).toNat

/-- The output byte `data[i]` of `TinySDF.draw`: zero for a degenerate
glyph (the buffer is freshly allocated and never written), otherwise the
clamped quantization of the combined signed distance. -/
noncomputable def drawData (o : SDFOptions) (m : TextMeasure) (img : ℕ → ℕ) (i : ℕ) : ℕ :=
  let dg := drawGrids o m img
  if dg.degenerate = true then 0
  else
    jsUint8Clamp (jsRound (255 - 255 *
      ((Real.sqrt ((dg.postOuter.getD i 0).toReal)
        - Real.sqrt ((dg.postInner.getD i 0).toReal)) / o.radius.toReal
        + o.cutoff.toReal)))

/-! ### Per-pixel characterization of the coverage loop -/

def coverKey (buffer width : ℕ) (yx : ℕ × ℕ) : ℕ := (yx.1 + buffer) * width + yx.2 + buffer

def coverA (glyphW : ℕ) (img : ℕ → ℕ) (yx : ℕ × ℕ) : Frac :=
  fracN (img (yx.1 * glyphW + yx.2)) / fracN 255

def coverW1 (glyphW : ℕ) (img : ℕ → ℕ) (yx : ℕ × ℕ) : Frac :=
  if (coverA glyphW img yx).valEq 1 then 0
  else if (0 : Frac) < (⟨1, 2⟩ : Frac) - coverA glyphW img yx
    then ((⟨1, 2⟩ : Frac) - coverA glyphW img yx) * ((⟨1, 2⟩ : Frac) - coverA glyphW img yx)
    else 0

def coverW2 (glyphW : ℕ) (img : ℕ → ℕ) (yx : ℕ × ℕ) : Frac :=
  if (coverA glyphW img yx).valEq 1 then INF
  else if (⟨1, 2⟩ : Frac) - coverA glyphW img yx < (0 : Frac)
    then ((⟨1, 2⟩ : Frac) - coverA glyphW img yx) * ((⟨1, 2⟩ : Frac) - coverA glyphW img yx)
    else 0

theorem toNat_mul_of_nonneg (a b : ℤ) (ha : 0 ≤ a) (hb : 0 ≤ b) :
    (a * b).toNat = a.toNat * b.toNat := by
  rcases Int.eq_ofNat_of_zero_le ha with ⟨m, rfl⟩
  rcases Int.eq_ofNat_of_zero_le hb with ⟨n, rfl⟩
  have h : (m : ℤ) * n = ((m * n : ℕ) : ℤ) := by push_cast; ring
  rw [h]
  exact Int.toNat_natCast (m * n)

theorem foldl_cover_frame {α : Type} (key : α → ℕ) (a : α → Frac) (w1 w2 : α → Frac)
    (l : List α) (g : List Frac × List Frac) (k : ℕ) (hk : ∀ p ∈ l, key p ≠ k) :
    (l.foldl (fun gs p => if (a p).valEq 0 then gs
        else (gs.1.set (key p) (w1 p), gs.2.set (key p) (w2 p))) g).1[k]? = g.1[k]?
    ∧ (l.foldl (fun gs p => if (a p).valEq 0 then gs
        else (gs.1.set (key p) (w1 p), gs.2.set (key p) (w2 p))) g).2[k]? = g.2[k]? := by
  induction l generalizing g with
  | nil => exact ⟨rfl, rfl⟩
  | cons q l ih =>
    have hq : key q ≠ k := hk q (List.mem_cons_self _ _)
    have hstep1 : (if (a q).valEq 0 then g
        else (g.1.set (key q) (w1 q), g.2.set (key q) (w2 q))).1[k]? = g.1[k]? := by
      by_cases h0 : (a q).valEq 0
      · rw [if_pos h0]
      · rw [if_neg h0]
        exact List.getElem?_set_ne hq
    have hstep2 : (if (a q).valEq 0 then g
        else (g.1.set (key q) (w1 q), g.2.set (key q) (w2 q))).2[k]? = g.2[k]? := by
      by_cases h0 : (a q).valEq 0
      · rw [if_pos h0]
      · rw [if_neg h0]
        exact List.getElem?_set_ne hq
    simp only [List.foldl_cons]
    obtain ⟨i1, i2⟩ := ih _ (fun p hp => hk p (List.mem_cons_of_mem _ hp))
    exact ⟨i1.trans hstep1, i2.trans hstep2⟩

theorem foldl_cover_at {α : Type} (key : α → ℕ) (a : α → Frac) (w1 w2 : α → Frac)
    (l : List α) (g : List Frac × List Frac) (p : α)
    (hnd : (l.map key).Nodup) (hp : p ∈ l) (ha : ¬(a p).valEq 0)
    (h1 : key p < g.1.length) (h2 : key p < g.2.length) :
    (l.foldl (fun gs r => if (a r).valEq 0 then gs
        else (gs.1.set (key r) (w1 r), gs.2.set (key r) (w2 r))) g).1[key p]? = some (w1 p)
    ∧ (l.foldl (fun gs r => if (a r).valEq 0 then gs
        else (gs.1.set (key r) (w1 r), gs.2.set (key r) (w2 r))) g).2[key p]? = some (w2 p) := by
  induction l generalizing g with
  | nil => cases hp
  | cons q l ih =>
    simp only [List.map_cons, List.nodup_cons] at hnd
    simp only [List.foldl_cons]
    rcases List.mem_cons.mp hp with rfl | hp'
    · rw [if_neg ha]
      obtain ⟨f1, f2⟩ := foldl_cover_frame key a w1 w2 l
        (g.1.set (key p) (w1 p), g.2.set (key p) (w2 p)) (key p)
        (fun r hr hcon => hnd.1 (hcon ▸ List.mem_map_of_mem key hr))
      exact ⟨f1.trans (List.getElem?_set_self h1), f2.trans (List.getElem?_set_self h2)⟩
    · have hg1 : key p < (if (a q).valEq 0 then g
          else (g.1.set (key q) (w1 q), g.2.set (key q) (w2 q))).1.length := by
        by_cases h0 : (a q).valEq 0
        · rw [if_pos h0]; exact h1
        · rw [if_neg h0]; simpa using h1
      have hg2 : key p < (if (a q).valEq 0 then g
          else (g.1.set (key q) (w1 q), g.2.set (key q) (w2 q))).2.length := by
        by_cases h0 : (a q).valEq 0
        · rw [if_pos h0]; exact h2
        · rw [if_neg h0]; simpa using h2
      exact ih _ hnd.2 hp' hg1 hg2

theorem coverKeys_nodup (buffer width glyphW glyphH : ℕ) (hbw : glyphW + buffer ≤ width) :
    (((List.range glyphH) ×ˢ (List.range glyphW)).map (coverKey buffer width)).Nodup := by
  apply List.Nodup.map_on _ ((List.nodup_range _).product (List.nodup_range _))
  rintro ⟨y1, x1⟩ h1 ⟨y2, x2⟩ h2 hkey
  rw [List.mem_product] at h1 h2
  simp only [List.mem_range] at h1 h2
  simp only [coverKey] at hkey
  have hw0 : 0 < width := by omega
  have hx1 : x1 + buffer < width := by omega
  have hx2 : x2 + buffer < width := by omega
  have e1 : ((y1 + buffer) * width + x1 + buffer) / width = y1 + buffer := by
    rw [show (y1 + buffer) * width + x1 + buffer
        = (x1 + buffer) + (y1 + buffer) * width from by ring]
    rw [Nat.add_mul_div_right _ _ hw0, Nat.div_eq_of_lt hx1, Nat.zero_add]
  have e2 : ((y2 + buffer) * width + x2 + buffer) / width = y2 + buffer := by
    rw [show (y2 + buffer) * width + x2 + buffer
        = (x2 + buffer) + (y2 + buffer) * width from by ring]
    rw [Nat.add_mul_div_right _ _ hw0, Nat.div_eq_of_lt hx2, Nat.zero_add]
  have hy : y1 = y2 := by
    have := e1.symm.trans ((congrArg (fun t => t / width) hkey).trans e2)
    omega
  have hx : x1 = x2 := by
    rw [hy] at hkey
    generalize (y2 + buffer) * width = t at hkey
    omega
  simp [Prod.ext_iff, hy, hx]

theorem coverGrids_at (buffer width glyphW glyphH len : ℕ) (img : ℕ → ℕ)
    (y x : ℕ) (hy : y < glyphH) (hx : x < glyphW)
    (hbw : glyphW + buffer ≤ width)
    (hlen : (y + buffer) * width + x + buffer < len)
    (ha : ¬(fracN (img (y * glyphW + x)) / fracN 255).valEq 0) :
    (coverGrids buffer width glyphW glyphH img len).1.getD
        ((y + buffer) * width + x + buffer) 0 = coverW1 glyphW img (y, x)
    ∧ (coverGrids buffer width glyphW glyphH img len).2.getD
        ((y + buffer) * width + x + buffer) 0 = coverW2 glyphW img (y, x) := by
  have hstep : (fun (gs : List Frac × List Frac) (yx : ℕ × ℕ) =>
      let a : Frac := fracN (img (yx.1 * glyphW + yx.2)) / fracN 255
      if a.valEq 0 then gs
      else
        let j := (yx.1 + buffer) * width + yx.2 + buffer
        if a.valEq 1 then
          (gs.1.set j 0, gs.2.set j INF)
        else
          let d := (⟨1, 2⟩ : Frac) - a
          (gs.1.set j (if (0 : Frac) < d then d * d else 0),
            gs.2.set j (if d < (0 : Frac) then d * d else 0)))
      = (fun gs yx => if (coverA glyphW img yx).valEq 0 then gs
          else (gs.1.set (coverKey buffer width yx) (coverW1 glyphW img yx),
                gs.2.set (coverKey buffer width yx) (coverW2 glyphW img yx))) := by
    funext gs yx
    simp only [coverA, coverKey, coverW1, coverW2]
    by_cases h0 : (fracN (img (yx.1 * glyphW + yx.2)) / fracN 255).valEq 0
    · simp [h0]
    · by_cases h1 : (fracN (img (yx.1 * glyphW + yx.2)) / fracN 255).valEq 1 <;>
        simp [h0, h1]
  have hcg : coverGrids buffer width glyphW glyphH img len
      = ((List.range glyphH) ×ˢ (List.range glyphW)).foldl
          (fun gs yx => if (coverA glyphW img yx).valEq 0 then gs
            else (gs.1.set (coverKey buffer width yx) (coverW1 glyphW img yx),
                  gs.2.set (coverKey buffer width yx) (coverW2 glyphW img yx)))
          (List.replicate len INF, List.replicate len 0) := by
    unfold coverGrids
    rw [hstep]
  have hmem : ((y, x) : ℕ × ℕ) ∈ (List.range glyphH) ×ˢ (List.range glyphW) :=
    List.mem_product.mpr ⟨List.mem_range.mpr hy, List.mem_range.mpr hx⟩
  have ha' : ¬(coverA glyphW img (y, x)).valEq 0 := ha
  obtain ⟨m1, m2⟩ := foldl_cover_at (coverKey buffer width) (coverA glyphW img)
    (coverW1 glyphW img) (coverW2 glyphW img)
    ((List.range glyphH) ×ˢ (List.range glyphW))
    (List.replicate len INF, List.replicate len 0) (y, x)
    (coverKeys_nodup buffer width glyphW glyphH hbw)
    hmem ha' (by simpa using hlen) (by simpa using hlen)
  have hkey : (y + buffer) * width + x + buffer = coverKey buffer width (y, x) := rfl
  constructor
  · rw [hcg, hkey, List.getD_eq_getElem?_getD, m1, Option.getD_some]
  · rw [hcg, hkey, List.getD_eq_getElem?_getD, m2, Option.getD_some]

def sdfOpts0 : SDFOptions := ⟨24, 3, ⟨8, 1⟩, ⟨1, 4⟩⟩

def sdfMeas0 : TextMeasure := ⟨0, 0, ⟨1, 2⟩, 0, 1⟩

def sdfImg0 : ℕ → ℕ := fun _ => 0

/-- C9 (amended): in `TinySDF.draw` on a non-degenerate glyph, every
covered pixel with coverage `a ≠ 0` initializes the outer grid to `0` for
`a = 1` and to `d > 0 ? d * d : 0` (with `d = 0.5 - a`) otherwise, and the
inner grid dually to `INF` resp. `d < 0 ? d * d : 0`; and every output
byte is the `Uint8ClampedArray` clamp to `[0, 255]` of
`round(255 - 255 * ((sqrt(outer) - sqrt(inner)) / radius + cutoff))` on
the distance-transformed grids.  (The claim's unclamped `round` formula is
refuted by `C9_counterexample`.) -/
theorem C9_sdf_pipeline (o : SDFOptions) (m : TextMeasure) (img : ℕ → ℕ)
    (hdeg : ¬((drawGeom o m).glyphWidth = 0 ∨ (drawGeom o m).glyphHeight = 0)) :
    (∀ y x : ℕ, y < (drawGeom o m).glyphHeight.toNat →
      x < (drawGeom o m).glyphWidth.toNat →
      ∀ a : Frac, a = fracN (img (y * (drawGeom o m).glyphWidth.toNat + x)) / fracN 255 →
      ¬a.valEq 0 →
        (drawGrids o m img).preOuter.getD
            ((y + o.buffer) * (drawGeom o m).width.toNat + x + o.buffer) 0
          = (if a.valEq 1 then 0
             else if (0 : Frac) < (⟨1, 2⟩ : Frac) - a
               then ((⟨1, 2⟩ : Frac) - a) * ((⟨1, 2⟩ : Frac) - a) else 0)
        ∧ (drawGrids o m img).preInner.getD
            ((y + o.buffer) * (drawGeom o m).width.toNat + x + o.buffer) 0
          = (if a.valEq 1 then INF
             else if (⟨1, 2⟩ : Frac) - a < (0 : Frac)
               then ((⟨1, 2⟩ : Frac) - a) * ((⟨1, 2⟩ : Frac) - a) else 0))
    ∧ (∀ i : ℕ, drawData o m img i
        = jsUint8Clamp (jsRound (255 - 255 *
            ((Real.sqrt (((drawGrids o m img).postOuter.getD i 0).toReal)
              - Real.sqrt (((drawGrids o m img).postInner.getD i 0).toReal))
              / o.radius.toReal + o.cutoff.toReal)))) := by
  have hgw : (drawGeom o m).glyphWidth = max 0 (min ((o.size : ℤ) - o.buffer)
      (m.actualBoundingBoxRight - m.actualBoundingBoxLeft).ceil) := rfl
  have hgw0 : 0 ≤ (drawGeom o m).glyphWidth := by rw [hgw]; exact le_max_left _ _
  have hwidth : (drawGeom o m).width = (drawGeom o m).glyphWidth + 2 * o.buffer := rfl
  have hheight : (drawGeom o m).height = (drawGeom o m).glyphHeight + 2 * o.buffer := rfl
  have hlen0 : (drawGeom o m).len
      = max ((drawGeom o m).width * (drawGeom o m).height) 0 := rfl
  have hpre1 : (drawGrids o m img).preOuter
      = (coverGrids o.buffer (drawGeom o m).width.toNat (drawGeom o m).glyphWidth.toNat
          (drawGeom o m).glyphHeight.toNat img (drawGeom o m).len.toNat).1 := by
    simp only [drawGrids]
    rw [if_neg hdeg]
  have hpre2 : (drawGrids o m img).preInner
      = (coverGrids o.buffer (drawGeom o m).width.toNat (drawGeom o m).glyphWidth.toNat
          (drawGeom o m).glyphHeight.toNat img (drawGeom o m).len.toNat).2 := by
    simp only [drawGrids]
    rw [if_neg hdeg]
  have hdegf : (drawGrids o m img).degenerate = false := by
    simp only [drawGrids]
    rw [if_neg hdeg]
  constructor
  · intro y x hy hx a ha hane
    subst ha
    have hbw : (drawGeom o m).glyphWidth.toNat + o.buffer
        ≤ (drawGeom o m).width.toNat := by omega
    have hgh1 : 0 < (drawGeom o m).glyphHeight := by omega
    have hmul : (drawGeom o m).len.toNat
        = (drawGeom o m).width.toNat * (drawGeom o m).height.toNat := by
      rw [hlen0, max_eq_left (mul_nonneg (by omega) (by omega))]
      exact toNat_mul_of_nonneg _ _ (by omega) (by omega)
    have hlen : (y + o.buffer) * (drawGeom o m).width.toNat + x + o.buffer
        < (drawGeom o m).len.toNat := by
      rw [hmul]
      calc (y + o.buffer) * (drawGeom o m).width.toNat + x + o.buffer
          < (y + o.buffer) * (drawGeom o m).width.toNat
              + (drawGeom o m).width.toNat := by omega
        _ = (y + o.buffer + 1) * (drawGeom o m).width.toNat := by ring
        _ ≤ (drawGeom o m).height.toNat * (drawGeom o m).width.toNat :=
            Nat.mul_le_mul_right _ (by omega)
        _ = (drawGeom o m).width.toNat * (drawGeom o m).height.toNat := Nat.mul_comm _ _
    obtain ⟨hc1, hc2⟩ := coverGrids_at o.buffer (drawGeom o m).width.toNat
      (drawGeom o m).glyphWidth.toNat (drawGeom o m).glyphHeight.toNat
      (drawGeom o m).len.toNat img y x hy hx hbw hlen hane
    constructor
    · rw [hpre1, hc1]
      rfl
    · rw [hpre2, hc2]
      rfl
  · intro i
    simp [drawData, hdegf]

theorem C9_sdf_pipeline_witness :
    ¬((drawGeom sdfOpts0 sdfMeas0).glyphWidth = 0
        ∨ (drawGeom sdfOpts0 sdfMeas0).glyphHeight = 0)
    ∧ ((∀ y x : ℕ, y < (drawGeom sdfOpts0 sdfMeas0).glyphHeight.toNat →
        x < (drawGeom sdfOpts0 sdfMeas0).glyphWidth.toNat →
        ∀ a : Frac,
          a = fracN (sdfImg0 (y * (drawGeom sdfOpts0 sdfMeas0).glyphWidth.toNat + x))
                / fracN 255 →
          ¬a.valEq 0 →
          (drawGrids sdfOpts0 sdfMeas0 sdfImg0).preOuter.getD
              ((y + sdfOpts0.buffer) * (drawGeom sdfOpts0 sdfMeas0).width.toNat
                + x + sdfOpts0.buffer) 0
            = (if a.valEq 1 then 0
               else if (0 : Frac) < (⟨1, 2⟩ : Frac) - a
                 then ((⟨1, 2⟩ : Frac) - a) * ((⟨1, 2⟩ : Frac) - a) else 0)
          ∧ (drawGrids sdfOpts0 sdfMeas0 sdfImg0).preInner.getD
              ((y + sdfOpts0.buffer) * (drawGeom sdfOpts0 sdfMeas0).width.toNat
                + x + sdfOpts0.buffer) 0
            = (if a.valEq 1 then INF
               else if (⟨1, 2⟩ : Frac) - a < (0 : Frac)
                 then ((⟨1, 2⟩ : Frac) - a) * ((⟨1, 2⟩ : Frac) - a) else 0))
      ∧ (∀ i : ℕ, drawData sdfOpts0 sdfMeas0 sdfImg0 i
          = jsUint8Clamp (jsRound (255 - 255 *
              ((Real.sqrt (((drawGrids sdfOpts0 sdfMeas0 sdfImg0).postOuter.getD i 0).toReal)
                - Real.sqrt (((drawGrids sdfOpts0 sdfMeas0 sdfImg0).postInner.getD i 0).toReal))
                / sdfOpts0.radius.toReal + sdfOpts0.cutoff.toReal))))) :=
  ⟨by decide, C9_sdf_pipeline sdfOpts0 sdfMeas0 sdfImg0 (by decide)⟩

/-- C9 is refuted as stated: for the default options and a measure
yielding a 1×1 glyph whose rasterization has zero coverage everywhere,
the first output byte of `draw` is `0` (the clamped store), while the
claimed unclamped formula `round(255 - 255 * ((sqrt(outer) - sqrt(inner))
/ radius + cutoff))` evaluates to `-318749999809` on the same grids. -/
theorem C9_counterexample :
    (drawData sdfOpts0 sdfMeas0 sdfImg0 0 : ℤ)
      ≠ jsRound (255 - 255 *
          ((Real.sqrt (((drawGrids sdfOpts0 sdfMeas0 sdfImg0).postOuter.getD 0 0).toReal)
            - Real.sqrt (((drawGrids sdfOpts0 sdfMeas0 sdfImg0).postInner.getD 0 0).toReal))
            / sdfOpts0.radius.toReal + sdfOpts0.cutoff.toReal)) := by
  have hO : (drawGrids sdfOpts0 sdfMeas0 sdfImg0).postOuter.getD 0 0 = INF := by decide
  have hI : (drawGrids sdfOpts0 sdfMeas0 sdfImg0).postInner.getD 0 0 = ⟨0, 1⟩ := by decide
  have hdegf : (drawGrids sdfOpts0 sdfMeas0 sdfImg0).degenerate = false := by decide
  have hrad : sdfOpts0.radius.toReal = 8 := by
    show Frac.toReal ⟨8, 1⟩ = 8
    simp [Frac.toReal]
  have hcut : sdfOpts0.cutoff.toReal = 1 / 4 := by
    show Frac.toReal ⟨1, 4⟩ = 1 / 4
    simp [Frac.toReal]
  have hsq0 : Real.sqrt (Frac.toReal ⟨0, 1⟩) = 0 := by
    simp [Frac.toReal]
  have hsq : Real.sqrt INF.toReal = 10 ^ 10 := by
    have h : INF.toReal = ((10 : ℝ) ^ 10) ^ 2 := by
      simp [INF, Frac.toReal]
      norm_num
    rw [h, Real.sqrt_sq (by positivity)]
  have hval : jsRound (255 - 255 *
      ((Real.sqrt (((drawGrids sdfOpts0 sdfMeas0 sdfImg0).postOuter.getD 0 0).toReal)
        - Real.sqrt (((drawGrids sdfOpts0 sdfMeas0 sdfImg0).postInner.getD 0 0).toReal))
        / sdfOpts0.radius.toReal + sdfOpts0.cutoff.toReal)) = -318749999809 := by
    rw [hO, hI, hrad, hcut, hsq0, hsq]
    unfold jsRound
    rw [Int.floor_eq_iff]
    constructor <;> norm_num
  have hdata : drawData sdfOpts0 sdfMeas0 sdfImg0 0 = 0 := by
    simp only [drawData, hdegf, Bool.false_eq_true, if_false]
    rw [hval]
    rfl
  rw [hval, hdata]
  decide

/-! ## Range disjointness facts for the Prepend case -/

theorem mem_inRanges {rs : List (Nat × Nat)} {u : Nat} (h : inRanges rs u = true) :
    ∃ r ∈ rs, r.1 ≤ u ∧ u ≤ r.2 := by
  simpa [inRanges, List.any_eq_true, Bool.and_eq_true, decide_eq_true_eq] using h

theorem inRanges_disjoint_false {rs₁ rs₂ : List (Nat × Nat)} {u : Nat}
    (hdis : ∀ r ∈ rs₁, ∀ q ∈ rs₂, r.2 < q.1 ∨ q.2 < r.1)
    (h : inRanges rs₁ u = true) : inRanges rs₂ u = false := by
  by_contra hc
  rw [Bool.not_eq_false] at hc
  obtain ⟨r, hr, hr1, hr2⟩ := mem_inRanges h
  obtain ⟨q, hq, hq1, hq2⟩ := mem_inRanges hc
  rcases hdis r hr q hq with h' | h' <;> omega

theorem memExceptions_single_cases {u : Nat} (h : memExceptions [u] = true) :
    u < 0xD800 ∧ inRanges prependRanges u = false := by
  have hmem : [u] ∈ exceptionsMembers := by simpa [memExceptions] using h
  have hdec : ∀ c ∈ exceptionsMembers, ∀ v ∈ c,
      v < 0xD800 ∧ inRanges prependRanges v = false := by decide
  exact hdec [u] hmem u (by simp)

/-- C6 (amended): a string consisting of a `Prepend` character followed by
one ordinary codepoint is segmented into TWO segments: an empty leading
segment (the `Prepend` branch of the clustering loop pushes the current —
initially empty — cluster unconditionally) followed by the two-codepoint
segment; the ordinary codepoint must not be one of the internal
placeholders U+E001..U+E005. -/
theorem C6_prepend_grouping (p : Str) (x : Nat)
    (hwf : WFChar p) (hp : memPrepend p = true)
    (hx1 : memExtend [x] = false) (hx2 : memSpacingMark [x] = false)
    (hx3 : memControl [x] = false) (hx4 : memPrepend [x] = false)
    (hxf : ¬(0xE001 ≤ x ∧ x ≤ 0xE005)) :
    segment (p ++ [x]) = [[], p ++ [x]] := by
  have hdisEx : ∀ r ∈ prependRanges, ∀ q ∈ extendRanges, r.2 < q.1 ∨ q.2 < r.1 := by
    decide
  have hdisSM : ∀ r ∈ prependRanges, ∀ q ∈ spacingMarkRanges, r.2 < q.1 ∨ q.2 < r.1 := by
    decide
  have hdisC : ∀ r ∈ prependRanges, ∀ q ∈ controlRanges, r.2 < q.1 ∨ q.2 < r.1 := by
    decide
  have hPrng : ∀ r ∈ prependRanges, r.2 < 0xD800 ∨ 0x10000 ≤ r.1 := by decide
  rcases hwf with ⟨u, rfl⟩ | ⟨h, l, rfl, hh, hl⟩
  · -- BMP prepend codepoint
    have hp' := hp
    simp only [memPrepend, memRanges, Bool.and_eq_true, decide_eq_true_eq] at hp'
    obtain ⟨hu16, hur⟩ := hp'
    have hult : u < 0xD800 := by
      obtain ⟨r, hr, h1, h2⟩ := mem_inRanges hur
      rcases hPrng r hr with h' | h' <;> omega
    have hne6 : u ≠ 0xE006 := by
      intro he; rw [he] at hur; exact absurd hur (by decide)
    have hne7 : u ≠ 0xE007 := by
      intro he; rw [he] at hur; exact absurd hur (by decide)
    have hext : memExtend [u] = false := by
      simp only [memExtend, memRanges]
      rw [inRanges_disjoint_false hdisEx hur, Bool.and_false]
      simp [hne6, hne7]
    have hsm : memSpacingMark [u] = false := by
      simp only [memSpacingMark, memRanges]
      rw [inRanges_disjoint_false hdisSM hur, Bool.and_false]
    have hctl : memControl [u] = false := by
      simp only [memControl, memRanges]
      rw [inRanges_disjoint_false hdisC hur, Bool.and_false]
    have hchars : charsOf ([u] ++ [x]) = [[u], [x]] := by
      rw [List.cons_append, List.nil_append, charsOf,
        if_neg (by simp [isHighSurrogate]; omega), charsOf]
    have hmgc : makeGraphemeClusters ([u] ++ [x]) = [[], [u, x]] := by
      unfold makeGraphemeClusters
      rw [hchars]
      rw [mgcLoop, if_neg (by simp [hext]), if_neg (by simp [hsm]),
        if_neg (by simp [hctl]), if_pos hp]
      rw [mgcLoop, if_neg (by simp [hx1]), if_neg (by simp [hx2]),
        if_neg (by simp [hx3]), if_neg (by simp [hx4]), if_pos rfl]
      rw [mgcLoop]
      simp
    have hsub : substitute [u, x] = [u, x] := by
      refine substitute_pair u x (fun hc => ?_) (fun hc => ?_)
      · rw [hc.1] at hur; exact absurd hur (by decide)
      · rw [hc.1] at hur; exact absurd hur (by decide)
    have hexc : memExceptions [u] = false := by
      by_contra hc
      rw [Bool.not_eq_false] at hc
      have := (memExceptions_single_cases hc).2
      rw [this] at hur; cases hur
    have hmc : mergeCond [] [u, x] = false := by
      simp [mergeCond, hasUnit, hexc]
    have hfree : ∀ v ∈ ([u, x] : Str), ¬(0xE001 ≤ v ∧ v ≤ 0xE005) := by
      intro v hv
      simp only [List.mem_cons, List.not_mem_nil, or_false] at hv
      rcases hv with rfl | rfl
      · omega
      · exact hxf
    unfold segment
    rw [hmgc]
    simp only [List.map_cons, List.map_nil, hsub,
      show substitute [] = [] from rfl]
    rw [segLoop, if_neg (by simp [hmc]), segLoop]
    have r2 : reinstate [u, x] = [u, x] := by
      rw [reinstate_eq_expandAll, expandAll_of_free _ hfree]
    simp [show reinstate [] = [] from rfl, r2]
  · -- astral prepend codepoint (surrogate pair)
    have hp' := hp
    simp only [memPrepend, memRanges, hh, hl, Bool.true_and, Bool.and_eq_true] at hp'
    have hh' : 0xD800 ≤ h ∧ h ≤ 0xDBFF := by
      simpa [isHighSurrogate, Bool.and_eq_true, decide_eq_true_eq] using hh
    have hl' : 0xDC00 ≤ l ∧ l ≤ 0xDFFF := by
      simpa [isLowSurrogate, Bool.and_eq_true, decide_eq_true_eq] using hl
    have hur : inRanges prependRanges (decodePair h l) = true := by
      simpa [memPrepend, memRanges, hh, hl] using hp
    have hext : memExtend [h, l] = false := by
      simp only [memExtend, memRanges, hh, hl, Bool.true_and]
      rw [inRanges_disjoint_false hdisEx hur]
      simp
    have hsm : memSpacingMark [h, l] = false := by
      simp only [memSpacingMark, memRanges, hh, hl, Bool.true_and]
      rw [inRanges_disjoint_false hdisSM hur]
    have hctl : memControl [h, l] = false := by
      simp only [memControl, memRanges, hh, hl, Bool.true_and]
      rw [inRanges_disjoint_false hdisC hur]
    have hchars : charsOf ([h, l] ++ [x]) = [[h, l], [x]] := by
      rw [List.cons_append, List.cons_append, List.nil_append, charsOf,
        if_pos (by simp [hh, hl]), charsOf]
    have hmgc : makeGraphemeClusters ([h, l] ++ [x]) = [[], [h, l, x]] := by
      unfold makeGraphemeClusters
      rw [hchars]
      rw [mgcLoop, if_neg (by simp [hext]), if_neg (by simp [hsm]),
        if_neg (by simp [hctl]), if_pos hp]
      rw [mgcLoop, if_neg (by simp [hx1]), if_neg (by simp [hx2]),
        if_neg (by simp [hx3]), if_neg (by simp [hx4]), if_pos rfl]
      rw [mgcLoop]
      simp
    have hsub : substitute [h, l, x] = [h, l, x] := by
      refine substitute_triple h l x (fun hc => ?_) (fun hc => ?_) (fun hc => ?_)
        (fun hc => ?_) <;> omega
    have hexc : memExceptions [h] = false := by
      by_contra hc
      rw [Bool.not_eq_false] at hc
      have := (memExceptions_single_cases hc).1
      omega
    have hmc : mergeCond [] [h, l, x] = false := by
      simp [mergeCond, hasUnit, hexc]
    have hfree : ∀ v ∈ ([h, l, x] : Str), ¬(0xE001 ≤ v ∧ v ≤ 0xE005) := by
      intro v hv
      simp only [List.mem_cons, List.not_mem_nil, or_false] at hv
      rcases hv with rfl | rfl | rfl
      · omega
      · omega
      · exact hxf
    unfold segment
    rw [hmgc]
    simp only [List.map_cons, List.map_nil, hsub,
      show substitute [] = [] from rfl]
    rw [segLoop, if_neg (by simp [hmc]), segLoop]
    have r2 : reinstate [h, l, x] = [h, l, x] := by
      rw [reinstate_eq_expandAll, expandAll_of_free _ hfree]
    simp [show reinstate [] = [] from rfl, r2]

/-- C6 witness: U+0600 (ARABIC NUMBER SIGN, in `Prepend`) followed by `a`. -/
theorem C6_prepend_grouping_witness :
    memPrepend [0x600] = true ∧ segment [0x600, 0x61] = [[], [0x600, 0x61]] :=
  ⟨by decide, by
    have h := C6_prepend_grouping [0x600] 0x61 (Or.inl ⟨0x600, rfl⟩) (by decide)
      (by decide) (by decide) (by decide) (by decide) (by decide)
    simpa using h⟩

/-- C6 counterexample: the claim as stated — exactly one segment, with no
empty leading segment — is false: the `Prepend` branch pushes the initial
empty cluster, so `segment` on U+0600 followed by `a` returns two segments,
the first one empty. -/
theorem C6_counterexample :
    segment [0x600, 0x61] = [[], [0x600, 0x61]] ∧
      segment [0x600, 0x61] ≠ [[0x600, 0x61]] := by
  constructor <;> decide

end MapGlyphs
